import Mathlib

/-!
Verification development for the Bionicsole insole-geometry frontend kernel.

The definitions below are a shallow embedding, over exact rationals, of the
height-field synthesizer and curve model implemented in
`frontend/src/components/steps/ArchAdjustmentCanvas.tsx` (the `profileData`
computation and its helpers), the curve editing logic of
`frontend/src/components/steps/ArchRegionEditorCanvas.tsx`, and the polygon
utilities of the geometry-utils module (`getOutlineYAtX`, `resamplePolygon`,
`densifyOpenCurve`, `densifyClosedPolygon`).

JavaScript numbers are modelled as `ℚ`; the three transcendental primitives
used by the source (`Math.cos`, `Math.pow (·, 0.6)` and `Math.sqrt`) are
passed in as an explicit `Prims` record of rational-valued functions, so that
every definition stays executable and every theorem quantifies over the
primitive implementations wherever their analytic properties are irrelevant.
-/

set_option maxRecDepth 100000

namespace Bionicsole

/-- A 2-D point, as used throughout the frontend (`{x, y}` objects, mm). -/
structure Point where
  x : ℚ
  y : ℚ
  deriving DecidableEq

/-- Default point used for out-of-range list indexing (never reached on the
index ranges the source actually uses). -/
def pt0 : Point := ⟨0, 0⟩

/-- A vertical range `{min, max}` as returned by the outline/Y-range helpers. -/
structure YRange where
  ymin : ℚ
  ymax : ℚ
  deriving DecidableEq

/-- The transcendental primitives of the source, abstracted as rational
functions: `cosPi t` models `Math.cos (t * Math.PI)`, `pow06 q` models
`Math.pow (q, 0.6)`, and `sqrtQ q` models `Math.sqrt q`. -/
structure Prims where
  cosPi : ℚ → ℚ
  pow06 : ℚ → ℚ
  sqrtQ : ℚ → ℚ

/-- The four per-landmark detail height overrides (`*_detail_heights`,
always a 4-element array in the store). -/
structure DetailHeights where
  h0 : ℚ
  h1 : ℚ
  h2 : ℚ
  h3 : ℚ
  deriving DecidableEq

/-- Per-side arch settings, as read from the store by `profileData`. -/
structure ArchSettings where
  medial_start : ℚ
  medial_peak : ℚ
  medial_end : ℚ
  medial_height : ℚ
  lateral_start : ℚ
  lateral_peak : ℚ
  lateral_end : ℚ
  lateral_height : ℚ
  transverse_start : ℚ
  transverse_peak : ℚ
  transverse_end : ℚ
  transverse_height : ℚ
  medial_y_start : ℚ
  medial_y_end : ℚ
  lateral_y_start : ℚ
  lateral_y_end : ℚ
  transverse_y_start : ℚ
  transverse_y_end : ℚ
  medial_detail_enabled : Bool
  medial_detail_heights : DetailHeights
  transverse_detail_enabled : Bool
  transverse_detail_heights : DetailHeights
  deriving DecidableEq

/-- The landmark map (`landmarkConfig`); a missing entry is `none`.  The
source reads entries either with `??` (nullish coalescing) or with `||`
(which also replaces a stored `0`). -/
structure LandmarkConfig where
  arch_start : Option ℚ
  lateral_arch_start : Option ℚ
  subtalar : Option ℚ
  navicular : Option ℚ
  cuboid : Option ℚ
  medial_cuneiform : Option ℚ
  metatarsal : Option ℚ
  deriving DecidableEq

/-- JavaScript `a ?? d` on an optional number. -/
def coalesce (o : Option ℚ) (d : ℚ) : ℚ := o.getD d

/-- JavaScript `a || d` on an optional number: a stored `0` is falsy and also
falls back to the default. -/
def orDefault (o : Option ℚ) (d : ℚ) : ℚ :=
  match o with
  | none => d
  | some v => if v = 0 then d else v

/-- The full arch curve set (`ArchCurves` of the API layer). -/
structure ArchCurves where
  medial : List Point
  medialFlat : List Point
  lateral : List Point
  lateralFlat : List Point
  transverse : List Point
  transverseFlat : List Point
  heelBridge : List Point
  lateralBridge : List Point
  metatarsalBridge : List Point
  deriving DecidableEq

/-- All inputs read by the `profileData` computation of
`ArchAdjustmentCanvas.tsx` (store state for the active foot side). -/
structure Params where
  baseThickness : ℚ
  heelCupHeight : ℚ
  medialWallHeight : ℚ
  medialWallPeakX : ℚ
  lateralWallHeight : ℚ
  lateralWallPeakX : ℚ
  archSettings : ArchSettings
  landmarkConfig : LandmarkConfig
  isRightFoot : Bool
  archCurves : Option ArchCurves
  outlinePoints : List Point

/-- `Math.min(...list)` on a nonempty list; `0` on `[]` (the source only ever
applies it to nonempty lists). -/
def minList : List ℚ → ℚ
  | [] => 0
  | h :: t => t.foldl min h

/-- `Math.max(...list)` on a nonempty list; `0` on `[]`. -/
def maxList : List ℚ → ℚ
  | [] => 0
  | h :: t => t.foldl max h

/-- The smoothstep used by both the backend-aligned preview
(`ArchAdjustmentCanvas.tsx`, `profileData`) and the bell-curve helper:
clamp to `[0,1]`, then `c² (3 − 2c)`. -/
def smoothstep (t : ℚ) : ℚ :=
  let clamped := max 0 (min 1 t)
  clamped * clamped * (3 - 2 * clamped)

/-- Cosine interpolation for the wall descent:
`0.5 * (1 + cos (clamped * π))`. -/
def cosineInterp (pr : Prims) (t : ℚ) : ℚ :=
  (1/2) * (1 + pr.cosPi (max 0 (min 1 t)))

/-- `getWallHeight` of `profileData`: heel-cup-derived base height until
`startX`, smoothstep rise to `peakX`, cosine decay to `endX`, zero beyond. -/
def getWallHeight (P : Params) (pr : Prims)
    (targetX peakX maxH startX endX : ℚ) : ℚ :=
  let heelHeight := P.heelCupHeight + P.baseThickness * (1/2)
  if targetX ≤ startX then heelHeight
  else if targetX ≤ peakX then
    if startX < peakX then
      heelHeight + (maxH - heelHeight) * smoothstep ((targetX - startX) / (peakX - startX))
    else maxH
  else if targetX ≤ endX then
    if peakX < endX then maxH * cosineInterp pr ((targetX - peakX) / (endX - peakX))
    else 0
  else 0

/-- `getArchHAtX` of `profileData`: the smoothstep bell curve between
`start`/`peak`/`endp`, zero at and outside the interval ends. -/
def getArchHAtX (targetX start peak endp maxH : ℚ) : ℚ :=
  if targetX ≤ start ∨ endp ≤ targetX then 0
  else if targetX ≤ peak then maxH * smoothstep ((targetX - start) / (peak - start))
  else maxH * (1 - smoothstep ((targetX - peak) / (endp - peak)))

/-- `bellCurveH` of `CrossSectionViewer` (lines 51–56), textually separate
from `getArchHAtX` in the source but implementing the same formula; used by
the detail-mode initialization handlers. -/
def bellCurveH (xq start peak endp maxH : ℚ) : ℚ :=
  if xq ≤ start ∨ endp ≤ xq then 0
  else if xq ≤ peak then maxH * smoothstep ((xq - start) / (peak - start))
  else maxH * (1 - smoothstep ((xq - peak) / (endp - peak)))

/-- One cubic Hermite segment of the detail splines:
`max 0 (h00·ya + h10·m1 + h01·yb + h11·m2)` at parameter `t`. -/
def hermiteVal (t ya yb m1 m2 : ℚ) : ℚ :=
  let h00 := 2*t*t*t - 3*t*t + 1
  let h10 := t*t*t - 2*t*t + t
  let h01 := -2*t*t*t + 3*t*t
  let h11 := t*t*t - t*t
  max 0 (h00*ya + h10*m1 + h01*yb + h11*m2)

/-- The clamped Catmull-Rom spline over the six knots
`(x0,y0) … (x5,y5)` shared verbatim by `evaluateDetailArch` and
`evaluateTransverseDetail` (the source contains two textually identical
copies of this interpolation code): zero at and outside `[x0,x5]`, segment
selection by the first `i < 4` with `x ≤ xs[i+1]`, Catmull-Rom tangents with
clamped (zero) end tangents, and a `max 0` floor on the segment value. -/
def detailSpline (x0 x1 x2 x3 x4 x5 y0 y1 y2 y3 y4 y5 xq : ℚ) : ℚ :=
  if xq ≤ x0 ∨ x5 ≤ xq then 0
  else if xq ≤ x1 then
    -- i = 0 : m1 = 0, m2 = ((y2 − y0)/(x2 − x0))·dx
    if x1 - x0 ≤ 0 then y0
    else hermiteVal ((xq - x0) / (x1 - x0)) y0 y1 0 (((y2 - y0) / (x2 - x0)) * (x1 - x0))
  else if xq ≤ x2 then
    -- i = 1
    if x2 - x1 ≤ 0 then y1
    else hermiteVal ((xq - x1) / (x2 - x1)) y1 y2
      (((y2 - y0) / (x2 - x0)) * (x2 - x1)) (((y3 - y1) / (x3 - x1)) * (x2 - x1))
  else if xq ≤ x3 then
    -- i = 2
    if x3 - x2 ≤ 0 then y2
    else hermiteVal ((xq - x2) / (x3 - x2)) y2 y3
      (((y3 - y1) / (x3 - x1)) * (x3 - x2)) (((y4 - y2) / (x4 - x2)) * (x3 - x2))
  else if xq ≤ x4 then
    -- i = 3
    if x4 - x3 ≤ 0 then y3
    else hermiteVal ((xq - x3) / (x4 - x3)) y3 y4
      (((y4 - y2) / (x4 - x2)) * (x4 - x3)) (((y5 - y3) / (x5 - x3)) * (x4 - x3))
  else
    -- i = 4 : m2 = 0
    if x5 - x4 ≤ 0 then y4
    else hermiteVal ((xq - x4) / (x5 - x4)) y4 y5
      (((y5 - y3) / (x5 - x3)) * (x5 - x4)) 0

/-- The derived M5 midpoint used by the medial detail spline and its
initialization: `(cuneiform + (metatarsal + 1)) / 2` (axis percentages). -/
def medialM5 (P : Params) : ℚ :=
  let cun := coalesce P.landmarkConfig.medial_cuneiform 55
  (cun + (coalesce P.landmarkConfig.metatarsal 70 + 1)) / 2

/-- `evaluateDetailArch` of `profileData`: the medial detail spline through
`medial_start`, subtalar, navicular, cuneiform, M5, `medial_end` with
heights `0, h0 … h3, 0`. -/
def evaluateDetailArch (P : Params) (xq : ℚ) : ℚ :=
  let hs := P.archSettings.medial_detail_heights
  let sub := coalesce P.landmarkConfig.subtalar 30
  let nav := coalesce P.landmarkConfig.navicular 43
  let cun := coalesce P.landmarkConfig.medial_cuneiform 55
  detailSpline P.archSettings.medial_start sub nav cun (medialM5 P)
    P.archSettings.medial_end 0 hs.h0 hs.h1 hs.h2 hs.h3 0 xq

/-- `evaluateTransverseDetail` of `profileData`: knots clamped into
`[transverse_start + 0.5, transverse_end − 0.5]`. -/
def evaluateTransverseDetail (P : Params) (xq : ℚ) : ℚ :=
  let hs := P.archSettings.transverse_detail_heights
  let ts := P.archSettings.transverse_start
  let te := P.archSettings.transverse_end
  let tr := max 1 (te - ts)
  let cl := fun v => max (ts + 1/2) (min (te - 1/2) v)
  let nav := cl (coalesce P.landmarkConfig.navicular (ts + tr * (15/100)))
  let cun := cl (coalesce P.landmarkConfig.medial_cuneiform (ts + tr * (45/100)))
  let metRaw := coalesce P.landmarkConfig.metatarsal (ts + tr * (85/100))
  let mt := cl ((cun + cl metRaw) / 2)
  let met := cl metRaw
  detailSpline ts nav cun mt met te 0 hs.h0 hs.h1 hs.h2 hs.h3 0 xq

/-- JavaScript `Math.round`: rounds half toward `+∞`. -/
def jsRound (q : ℚ) : ℤ := ⌊q + 1/2⌋

/-- `Math.round (v * 10) / 10`: round to one decimal. -/
def round1 (q : ℚ) : ℚ := (jsRound (q * 10) : ℚ) / 10

/-- The all-zero branch of `handleDetailToggle` (lines 133–143): the medial
detail heights initialized from the bell curve at the subtalar, navicular,
cuneiform and M5 landmark positions, rounded to 0.1 mm. -/
def medialDetailInitHeights (P : Params) : DetailHeights :=
  let sub := coalesce P.landmarkConfig.subtalar 30
  let nav := coalesce P.landmarkConfig.navicular 43
  let cun := coalesce P.landmarkConfig.medial_cuneiform 55
  let s := P.archSettings
  ⟨round1 (bellCurveH sub s.medial_start s.medial_peak s.medial_end s.medial_height),
   round1 (bellCurveH nav s.medial_start s.medial_peak s.medial_end s.medial_height),
   round1 (bellCurveH cun s.medial_start s.medial_peak s.medial_end s.medial_height),
   round1 (bellCurveH (medialM5 P) s.medial_start s.medial_peak s.medial_end s.medial_height)⟩

/-- The local `getYAtX` helper of `ArchAdjustmentCanvas.tsx` (lines
179–191): scan consecutive pairs of an open polyline, return the linear
interpolation on the first segment whose x-range brackets `targetX`
(a near-vertical segment, `|Δx| < 0.001`, returns its first y), `none`
otherwise. -/
def getYAtX : List Point → ℚ → Option ℚ
  | p1 :: p2 :: rest, targetX =>
    if (p1.x ≤ targetX ∧ targetX ≤ p2.x) ∨ (p2.x ≤ targetX ∧ targetX ≤ p1.x) then
      if |p2.x - p1.x| < 1/1000 then some p1.y
      else some (p1.y + (p2.y - p1.y) * ((targetX - p1.x) / (p2.x - p1.x)))
    else getYAtX (p2 :: rest) targetX
  | _, _ => none

/-- The intersection list built by the local `getYRangeAtX` of
`ArchAdjustmentCanvas.tsx` (lines 194–208): one interpolated y per wrapped
edge satisfying `(p1.x ≤ t ∧ p2.x > t) ∨ (p1.x ≥ t ∧ p2.x < t)`. -/
def yRangeIntersections (points : List Point) (targetX : ℚ) : List ℚ :=
  (List.range points.length).filterMap fun i =>
    let p1 := points.getD i pt0
    let p2 := points.getD ((i + 1) % points.length) pt0
    if (p1.x ≤ targetX ∧ targetX < p2.x) ∨ (targetX ≤ p1.x ∧ p2.x < targetX) then
      some (p1.y + (p2.y - p1.y) * ((targetX - p1.x) / (p2.x - p1.x)))
    else none

/-- The local `getYRangeAtX` of `ArchAdjustmentCanvas.tsx`: `none` on fewer
than two points or fewer than two intersections; otherwise the sorted
intersections' first and last entries, i.e. their minimum and maximum. -/
def getYRangeAtX (points : List Point) (targetX : ℚ) : Option YRange :=
  if points.length < 2 then none
  else
    let ints := yRangeIntersections points targetX
    if ints.length < 2 then none
    else some ⟨minList ints, maxList ints⟩

/-- The intersection list of `getOutlineYAtX` (geometry utils, lines
225–238): edge test `(p1.x ≤ t ∧ p2.x > t) ∨ (p2.x ≤ t ∧ p1.x > t)`. -/
def outlineIntersections (points : List Point) (targetX : ℚ) : List ℚ :=
  (List.range points.length).filterMap fun i =>
    let p1 := points.getD i pt0
    let p2 := points.getD ((i + 1) % points.length) pt0
    if (p1.x ≤ targetX ∧ targetX < p2.x) ∨ (p2.x ≤ targetX ∧ targetX < p1.x) then
      some (p1.y + ((targetX - p1.x) / (p2.x - p1.x)) * (p2.y - p1.y))
    else none

/-- `getOutlineYAtX` of the geometry utils: `none` on fewer than two edge
crossings, otherwise `{min, max}` of the crossing ys. -/
def getOutlineYAtX (points : List Point) (targetX : ℚ) : Option YRange :=
  let ints := outlineIntersections points targetX
  if ints.length < 2 then none
  else some ⟨minList ints, maxList ints⟩

/-- The number of polygon edges crossed by the vertical line `x = targetX`
under the edge test of `getOutlineYAtX`. -/
def crossingCount (points : List Point) (targetX : ℚ) : Nat :=
  ((List.range points.length).filter fun i =>
    let p1 := points.getD i pt0
    let p2 := points.getD ((i + 1) % points.length) pt0
    decide ((p1.x ≤ targetX ∧ targetX < p2.x) ∨ (p2.x ≤ targetX ∧ targetX < p1.x))).length

/-- One Catmull-Rom sample used by both densify functions. -/
def catmullPoint (p0 p1 p2 p3 : Point) (t : ℚ) : Point :=
  let t2 := t * t
  let t3 := t2 * t
  ⟨(1/2) * ((2 * p1.x) + (-p0.x + p2.x) * t + (2*p0.x - 5*p1.x + 4*p2.x - p3.x) * t2
      + (-p0.x + 3*p1.x - 3*p2.x + p3.x) * t3),
   (1/2) * ((2 * p1.y) + (-p0.y + p2.y) * t + (2*p0.y - 5*p1.y + 4*p2.y - p3.y) * t2
      + (-p0.y + 3*p1.y - 3*p2.y + p3.y) * t3)⟩

/-- `densifyClosedPolygon` of the geometry utils: full-wrap Catmull-Rom,
`subdivisions` samples per control point. -/
def densifyClosedPolygon (points : List Point) (subdivisions : Nat := 8) : List Point :=
  if points.length < 3 then points
  else
    let n := points.length
    (List.range n).flatMap fun i =>
      let p0 := points.getD ((i + n - 1) % n) pt0
      let p1 := points.getD i pt0
      let p2 := points.getD ((i + 1) % n) pt0
      let p3 := points.getD ((i + 2) % n) pt0
      (List.range subdivisions).map fun j => catmullPoint p0 p1 p2 p3 ((j : ℚ) / (subdivisions : ℚ))

/-- `densifyOpenCurve` of the geometry utils: endpoints duplicated as
phantom points, then Catmull-Rom samples per interior segment, with the
final endpoint appended. -/
def densifyOpenCurve (points : List Point) (subdivisions : Nat := 8) : List Point :=
  if points.length < 2 then points
  else
    let ext := points.headD pt0 :: (points ++ [points.getLastD pt0])
    ((List.range (ext.length - 3)).flatMap fun k =>
      let p0 := ext.getD k pt0
      let p1 := ext.getD (k + 1) pt0
      let p2 := ext.getD (k + 2) pt0
      let p3 := ext.getD (k + 3) pt0
      (List.range subdivisions).map fun j => catmullPoint p0 p1 p2 p3 ((j : ℚ) / (subdivisions : ℚ)))
    ++ [points.getLastD pt0]

/-- `dist` of the geometry utils: `Math.sqrt ((Δx)² + (Δy)²)` through the
abstract square-root primitive. -/
def distP (pr : Prims) (p1 p2 : Point) : ℚ :=
  pr.sqrtQ ((p1.x - p2.x) * (p1.x - p2.x) + (p1.y - p2.y) * (p1.y - p2.y))

/-- The total perimeter computed by `resamplePolygon` (wrapped edges). -/
def perimeter (pr : Prims) (points : List Point) : ℚ :=
  (List.range points.length).foldl
    (fun acc i => acc + distP pr (points.getD i pt0) (points.getD ((i + 1) % points.length) pt0)) 0

/-- The inner `while (accumulatedDist + segmentLen > nextDist)` loop of
`resamplePolygon`, walking one segment: each iteration emits the point at
arc-length `nextDist` (appended only while fewer than `targetCount` points
exist) and advances `nextDist` by `step`.  The loop is given `fuel`
iterations; for nonnegative segment lengths the source loop performs at most
`targetCount` iterations in total, so the `targetCount + 1` fuel passed by
`resamplePolygon` below makes the embedding agree with the source. -/
def resampleInner (p1 p2 : Point) (segLen step : ℚ) (targetCount : Nat) :
    Nat → ℚ → ℚ → List Point → ℚ × List Point
  | 0, nextDist, _, acc => (nextDist, acc)
  | fuel + 1, nextDist, accumulatedDist, acc =>
    if accumulatedDist + segLen > nextDist then
      let ratio := (nextDist - accumulatedDist) / segLen
      let np : Point := ⟨p1.x + (p2.x - p1.x) * ratio, p1.y + (p2.y - p1.y) * ratio⟩
      let acc2 := if acc.length < targetCount then acc ++ [np] else acc
      resampleInner p1 p2 segLen step targetCount fuel (nextDist + step) accumulatedDist acc2
    else (nextDist, acc)

/-- The body of the outer segment loop of `resamplePolygon`, threading the
state `(nextDist, accumulatedDist, newPoints)` across segment `i` of the
closed polygon. -/
def resampleStep (pr : Prims) (closedPoints : List Point) (step : ℚ) (targetCount : Nat)
    (st : ℚ × ℚ × List Point) (i : Nat) : ℚ × ℚ × List Point :=
  let p1 := closedPoints.getD i pt0
  let p2 := closedPoints.getD (i + 1) pt0
  let segLen := distP pr p1 p2
  let res := resampleInner p1 p2 segLen step targetCount (targetCount + 1) st.1 st.2.1 st.2.2
  (res.1, st.2.1 + segLen, res.2)

/-- `resamplePolygon` of the geometry utils: start from the first input
point, walk the closed perimeter emitting a point every
`totalLength / targetCount`, then pad with the last input point
(`while (newPoints.length < targetCount) push(last)`, rendered as a
`replicate` append) and truncate with `slice(0, targetCount)`. -/
def resamplePolygon (pr : Prims) (points : List Point) (targetCount : Nat) : List Point :=
  if points.length < 2 then points
  else
    let totalLength := perimeter pr points
    let step := totalLength / (targetCount : ℚ)
    let closedPoints := points ++ [points.headD pt0]
    let final :=
      (List.range (closedPoints.length - 1)).foldl
        (resampleStep pr closedPoints step targetCount) (step, 0, [points.headD pt0])
    let newPoints := final.2.2
    (newPoints ++ List.replicate (targetCount - newPoints.length) (points.getLastD pt0)).take
      targetCount

/-- `minX` of the outline bounding box in `profileData` (default 0 when the
outline is empty). -/
def outlineMinX (P : Params) : ℚ :=
  match P.outlinePoints with
  | [] => 0
  | ps => minList (ps.map Point.x)

/-- `maxX` of the outline bounding box (default 260). -/
def outlineMaxX (P : Params) : ℚ :=
  match P.outlinePoints with
  | [] => 260
  | ps => maxList (ps.map Point.x)

/-- `minY` of the outline bounding box (default 0). -/
def outlineMinY (P : Params) : ℚ :=
  match P.outlinePoints with
  | [] => 0
  | ps => minList (ps.map Point.y)

/-- `maxY` of the outline bounding box (default 80). -/
def outlineMaxY (P : Params) : ℚ :=
  match P.outlinePoints with
  | [] => 80
  | ps => maxList (ps.map Point.y)

/-- `currentX = minX + (maxX − minX) * (xPercent / 100)`. -/
def currentXAt (P : Params) (xPercent : ℚ) : ℚ :=
  outlineMinX P + (outlineMaxX P - outlineMinX P) * (xPercent / 100)

/-- `landmarkConfig['arch_start'] || 15` (note `||`, not `??`). -/
def medialStartLm (P : Params) : ℚ := orDefault P.landmarkConfig.arch_start 15

/-- `landmarkConfig['lateral_arch_start'] || 20`. -/
def lateralStartLm (P : Params) : ℚ := orDefault P.landmarkConfig.lateral_arch_start 20

/-- `landmarkConfig['metatarsal'] || 70`. -/
def metatarsalLm (P : Params) : ℚ := orDefault P.landmarkConfig.metatarsal 70

/-- `landmarkConfig['cuboid'] || 45`. -/
def cuboidLm (P : Params) : ℚ := orDefault P.landmarkConfig.cuboid 45

/-- `innerWallH`: medial wall profile at the current x. -/
def innerWallHAt (P : Params) (pr : Prims) (xPercent : ℚ) : ℚ :=
  getWallHeight P pr xPercent P.medialWallPeakX P.medialWallHeight (medialStartLm P) (metatarsalLm P)

/-- `outerWallH`: lateral wall profile at the current x. -/
def outerWallHAt (P : Params) (pr : Prims) (xPercent : ℚ) : ℚ :=
  getWallHeight P pr xPercent P.lateralWallPeakX P.lateralWallHeight (lateralStartLm P) (cuboidLm P)

/-- `archInner`: the medial arch x-profile — the detail spline when detail
mode is enabled, the bell curve otherwise. -/
def archInnerAt (P : Params) (xPercent : ℚ) : ℚ :=
  if P.archSettings.medial_detail_enabled then evaluateDetailArch P xPercent
  else getArchHAtX xPercent P.archSettings.medial_start P.archSettings.medial_peak
    P.archSettings.medial_end P.archSettings.medial_height

/-- `archOuter`: the lateral arch x-profile (bell curve only). -/
def archOuterAt (P : Params) (xPercent : ℚ) : ℚ :=
  getArchHAtX xPercent P.archSettings.lateral_start P.archSettings.lateral_peak
    P.archSettings.lateral_end P.archSettings.lateral_height

/-- `archTransverseRaw`: the transverse arch x-profile — detail spline or
bell curve. -/
def archTransverseRawAt (P : Params) (xPercent : ℚ) : ℚ :=
  if P.archSettings.transverse_detail_enabled then evaluateTransverseDetail P xPercent
  else getArchHAtX xPercent P.archSettings.transverse_start P.archSettings.transverse_peak
    P.archSettings.transverse_end P.archSettings.transverse_height

/-- `archTransverse`: plateau widening
`maxTransH * (raw / maxTransH) ^ 0.6` when both are positive. -/
def archTransverseAt (P : Params) (pr : Prims) (xPercent : ℚ) : ℚ :=
  let raw := archTransverseRawAt P xPercent
  let maxTransH := P.archSettings.transverse_height
  if 0 < raw ∧ 0 < maxTransH then maxTransH * pr.pow06 (raw / maxTransH) else raw

/-- `heelCupProfile = xPercent ≤ 20 ? heelCupHeight * (1 − xPercent/40) : 0`. -/
def heelCupProfileAt (P : Params) (xPercent : ℚ) : ℚ :=
  if xPercent ≤ 20 then P.heelCupHeight * (1 - xPercent / 40) else 0

/-- `medialSolidY`: intersection of the medial solid curve with the current
x (only when curve data exists). -/
def medialSolidYAt (P : Params) (xPercent : ℚ) : Option ℚ :=
  P.archCurves.bind fun c => getYAtX c.medial (currentXAt P xPercent)

/-- `medialFlatY`. -/
def medialFlatYAt (P : Params) (xPercent : ℚ) : Option ℚ :=
  P.archCurves.bind fun c => getYAtX c.medialFlat (currentXAt P xPercent)

/-- `lateralSolidY`. -/
def lateralSolidYAt (P : Params) (xPercent : ℚ) : Option ℚ :=
  P.archCurves.bind fun c => getYAtX c.lateral (currentXAt P xPercent)

/-- `lateralFlatY`. -/
def lateralFlatYAt (P : Params) (xPercent : ℚ) : Option ℚ :=
  P.archCurves.bind fun c => getYAtX c.lateralFlat (currentXAt P xPercent)

/-- `transverseRange`: y-range of the densified transverse polygon at the
current x. -/
def transverseRangeAt (P : Params) (xPercent : ℚ) : Option YRange :=
  P.archCurves.bind fun c =>
    getYRangeAtX (densifyClosedPolygon c.transverse 8) (currentXAt P xPercent)

/-- `outlineBounds` at the current x (local `getYRangeAtX` on the outline). -/
def outlineBoundsAt (P : Params) (xPercent : ℚ) : Option YRange :=
  getYRangeAtX P.outlinePoints (currentXAt P xPercent)

/-- `currentYMin`: outline lower bound at the current x, falling back to the
bounding-box `minY`. -/
def currentYMinAt (P : Params) (xPercent : ℚ) : ℚ :=
  match outlineBoundsAt P xPercent with
  | some b => b.ymin
  | none => outlineMinY P

/-- `currentYMax`: outline upper bound, falling back to `maxY`. -/
def currentYMaxAt (P : Params) (xPercent : ℚ) : ℚ :=
  match outlineBoundsAt P xPercent with
  | some b => b.ymax
  | none => outlineMaxY P

/-- `currentWidth = currentYMax − currentYMin`. -/
def currentWidthAt (P : Params) (xPercent : ℚ) : ℚ :=
  currentYMaxAt P xPercent - currentYMinAt P xPercent

/-- `distHeel = (xPercent / 100) * (maxX − minX)`. -/
def distHeelAt (P : Params) (xPercent : ℚ) : ℚ :=
  (xPercent / 100) * (outlineMaxX P - outlineMinX P)

/-- The arch-pad polygon y-range (lines 378–407): the polygon bounded by the
densified heel, lateral and metatarsal bridges, with 20 outline samples
closing each of the two gaps, intersected at the current x. -/
def archPadYRangeAt (P : Params) (xPercent : ℚ) : Option YRange :=
  match P.archCurves with
  | none => none
  | some c =>
    if 2 ≤ c.heelBridge.length ∧ 2 ≤ c.lateralBridge.length ∧ 2 ≤ c.metatarsalBridge.length then
      let smoothHeel := densifyOpenCurve c.heelBridge 8
      let smoothLateral := densifyOpenCurve c.lateralBridge 8
      let smoothMeta := densifyOpenCurve c.metatarsalBridge 8
      let outerStartX := (smoothHeel.getLastD pt0).x
      let outerEndX := (smoothLateral.headD pt0).x
      let outerSeg :=
        if 1/10 < |outerEndX - outerStartX| then
          (List.range 20).filterMap fun s0 =>
            let sx := outerStartX + (outerEndX - outerStartX) * (((s0 : ℚ) + 1) / 21)
            (getYRangeAtX P.outlinePoints sx).map fun b => (⟨sx, b.ymax⟩ : Point)
        else []
      let innerStartX := (smoothMeta.getLastD pt0).x
      let innerEndX := (smoothHeel.headD pt0).x
      let innerSeg :=
        if 1/10 < |innerEndX - innerStartX| then
          (List.range 20).filterMap fun s0 =>
            let sx := innerStartX + (innerEndX - innerStartX) * (((s0 : ℚ) + 1) / 21)
            (getYRangeAtX P.outlinePoints sx).map fun b => (⟨sx, b.ymin⟩ : Point)
        else []
      let padPoly := smoothHeel ++ outerSeg ++ smoothLateral ++ smoothMeta ++ innerSeg
      getYRangeAtX padPoly (currentXAt P xPercent)
    else none

/-- `mirrorY`: reflect a curve y across the outline band for the left foot. -/
def mirrorYAt (P : Params) (xPercent : ℚ) (yv : ℚ) : ℚ :=
  if P.isRightFoot then yv else currentYMinAt P xPercent + currentYMaxAt P xPercent - yv

/-- `medialSolidYMirrored`. -/
def medialSolidYM (P : Params) (xPercent : ℚ) : Option ℚ :=
  (medialSolidYAt P xPercent).map (mirrorYAt P xPercent)

/-- `medialFlatYMirrored`. -/
def medialFlatYM (P : Params) (xPercent : ℚ) : Option ℚ :=
  (medialFlatYAt P xPercent).map (mirrorYAt P xPercent)

/-- `lateralSolidYMirrored`. -/
def lateralSolidYM (P : Params) (xPercent : ℚ) : Option ℚ :=
  (lateralSolidYAt P xPercent).map (mirrorYAt P xPercent)

/-- `lateralFlatYMirrored`. -/
def lateralFlatYM (P : Params) (xPercent : ℚ) : Option ℚ :=
  (lateralFlatYAt P xPercent).map (mirrorYAt P xPercent)

/-- `transverseRangeMirrored`: min/max swap under reflection for the left
foot. -/
def transverseRangeM (P : Params) (xPercent : ℚ) : Option YRange :=
  match transverseRangeAt P xPercent with
  | none => none
  | some r =>
    if P.isRightFoot then some r
    else some ⟨currentYMinAt P xPercent + currentYMaxAt P xPercent - r.ymax,
               currentYMinAt P xPercent + currentYMaxAt P xPercent - r.ymin⟩

/-- `currentY = currentYMin + yRatio * currentWidth` for the sample at
`yPct` percent of the band. -/
def currentYAt (P : Params) (xPercent yPct : ℚ) : ℚ :=
  currentYMinAt P xPercent + (yPct / 100) * currentWidthAt P xPercent

/-- `archYRatio`: width position normalized so 1 = medial edge (flipped for
the right foot whose medial edge is at `minY`). -/
def archYRatioAt (P : Params) (yPct : ℚ) : ℚ :=
  if P.isRightFoot then 1 - yPct / 100 else yPct / 100

/-- `heelCupRegion`: heel boundary interpolated between the lateral and
medial arch-start landmarks by `archYRatio`. -/
def heelCupRegionAt (P : Params) (yPct : ℚ) : ℚ :=
  lateralStartLm P * (1 - archYRatioAt P yPct) + medialStartLm P * archYRatioAt P yPct

/-- `medialEdge`: the medial outline edge (minY for the right foot). -/
def medialEdgeAt (P : Params) (xPercent : ℚ) : ℚ :=
  if P.isRightFoot then currentYMinAt P xPercent else currentYMaxAt P xPercent

/-- `lateralEdge`. -/
def lateralEdgeAt (P : Params) (xPercent : ℚ) : ℚ :=
  if P.isRightFoot then currentYMaxAt P xPercent else currentYMinAt P xPercent

/-- Step 1 of the longitudinal arch height (lines 453–482): the medial arch
contribution merged (by `max`) into the running value `cur`. -/
def medialArchContrib (P : Params) (xPercent yPct cur : ℚ) : ℚ :=
  match medialSolidYM P xPercent, medialFlatYM P xPercent with
  | some sy, some fy =>
    if min fy (medialEdgeAt P xPercent) ≤ currentYAt P xPercent yPct ∧
        currentYAt P xPercent yPct ≤ max fy (medialEdgeAt P xPercent) then
      max cur (archInnerAt P xPercent)
    else
      if 1/100 < |fy - sy| then
        if 0 ≤ (currentYAt P xPercent yPct - sy) / (fy - sy) ∧
            (currentYAt P xPercent yPct - sy) / (fy - sy) ≤ 1 then
          max cur (archInnerAt P xPercent * smoothstep ((currentYAt P xPercent yPct - sy) / (fy - sy)))
        else cur
      else cur
  | _, _ =>
    if P.archSettings.medial_y_start / 100 ≤ archYRatioAt P yPct then
      if 0 < P.archSettings.medial_y_end / 100 - P.archSettings.medial_y_start / 100 then
        max cur (archInnerAt P xPercent *
          min 1 ((archYRatioAt P yPct - P.archSettings.medial_y_start / 100) /
            (P.archSettings.medial_y_end / 100 - P.archSettings.medial_y_start / 100)))
      else max cur (archInnerAt P xPercent)
    else cur

/-- Step 2 of the longitudinal arch height (lines 484–513): the lateral arch
contribution. -/
def lateralArchContrib (P : Params) (xPercent yPct cur : ℚ) : ℚ :=
  match lateralSolidYM P xPercent, lateralFlatYM P xPercent with
  | some sy, some fy =>
    if min fy (lateralEdgeAt P xPercent) ≤ currentYAt P xPercent yPct ∧
        currentYAt P xPercent yPct ≤ max fy (lateralEdgeAt P xPercent) then
      max cur (archOuterAt P xPercent)
    else
      if 1/100 < |fy - sy| then
        if 0 ≤ (currentYAt P xPercent yPct - sy) / (fy - sy) ∧
            (currentYAt P xPercent yPct - sy) / (fy - sy) ≤ 1 then
          max cur (archOuterAt P xPercent * smoothstep ((currentYAt P xPercent yPct - sy) / (fy - sy)))
        else cur
      else cur
  | _, _ =>
    if archYRatioAt P yPct ≤ P.archSettings.lateral_y_end / 100 then
      if 0 < P.archSettings.lateral_y_end / 100 - P.archSettings.lateral_y_start / 100 then
        max cur (archOuterAt P xPercent *
          max 0 (1 - (archYRatioAt P yPct - P.archSettings.lateral_y_start / 100) /
            (P.archSettings.lateral_y_end / 100 - P.archSettings.lateral_y_start / 100)))
      else max cur (archOuterAt P xPercent)
    else cur

/-- `longitudinalArchHeight` after both medial and lateral steps. -/
def longitudinalAt (P : Params) (xPercent yPct : ℚ) : ℚ :=
  lateralArchContrib P xPercent yPct (medialArchContrib P xPercent yPct 0)

/-- Step 3, `transverseArchHeight` (lines 515–542): inside the densified
polygon band, the radial s-curve falloff
`archTransverse * ss (ss ((1 − |y − c| / half) ^ 0.6))`; the symmetric
percentage-band fallback otherwise. -/
def transverseArchHeightAt (P : Params) (pr : Prims) (xPercent yPct : ℚ) : ℚ :=
  match transverseRangeM P xPercent with
  | some r =>
    if r.ymin ≤ currentYAt P xPercent yPct ∧ currentYAt P xPercent yPct ≤ r.ymax then
      if 0 < (r.ymax - r.ymin) / 2 then
        archTransverseAt P pr xPercent *
          smoothstep (smoothstep (pr.pow06 (max 0 (1 -
            |currentYAt P xPercent yPct - (r.ymin + r.ymax) / 2| / ((r.ymax - r.ymin) / 2)))))
      else 0
    else 0
  | none =>
    if 0 < archTransverseAt P pr xPercent ∧
        P.archSettings.transverse_y_start / 100 ≤ archYRatioAt P yPct ∧
        archYRatioAt P yPct ≤ P.archSettings.transverse_y_end / 100 then
      if 0 < (P.archSettings.transverse_y_end / 100 - P.archSettings.transverse_y_start / 100) / 2 then
        archTransverseAt P pr xPercent *
          smoothstep (smoothstep (pr.pow06 (max 0 (1 -
            |archYRatioAt P yPct -
              (P.archSettings.transverse_y_start / 100 + P.archSettings.transverse_y_end / 100) / 2| /
            ((P.archSettings.transverse_y_end / 100 - P.archSettings.transverse_y_start / 100) / 2)))))
      else 0
    else 0

/-- `archH` including the micro-height floor of the arch-pad gap region
(lines 544–564). -/
def archHAt (P : Params) (pr : Prims) (xPercent yPct : ℚ) : ℚ :=
  let archH := max (longitudinalAt P xPercent yPct) (transverseArchHeightAt P pr xPercent yPct)
  match archPadYRangeAt P xPercent with
  | none => archH
  | some pad =>
    if pad.ymin ≤ currentYAt P xPercent yPct ∧ currentYAt P xPercent yPct ≤ pad.ymax then
      let microHeightX := max (max (archInnerAt P xPercent) (archOuterAt P xPercent))
        (archTransverseAt P pr xPercent)
      if 0 < microHeightX then
        let maxArchH := max (max P.archSettings.medial_height P.archSettings.lateral_height) (1/100)
        let microH0 := (4/10) * min 1 (microHeightX / maxArchH)
        let distToEdge := min (currentYAt P xPercent yPct - pad.ymin)
          (pad.ymax - currentYAt P xPercent yPct)
        let microH :=
          if 0 < distToEdge ∧ distToEdge < 3 then microH0 * smoothstep (distToEdge / 3)
          else if distToEdge ≤ 0 then 0
          else microH0
        max archH microH
      else archH
    else archH

/-- `wallH`: the y-interpolated wall blend plus the heel-cup addition inside
the heel-cup region (lines 566–567 and 602–606). -/
def wallHAt (P : Params) (pr : Prims) (xPercent yPct : ℚ) : ℚ :=
  let w := outerWallHAt P pr xPercent * (1 - archYRatioAt P yPct) +
    innerWallHAt P pr xPercent * archYRatioAt P yPct
  if xPercent ≤ heelCupRegionAt P yPct then
    w + heelCupProfileAt P xPercent * (1 - xPercent / heelCupRegionAt P yPct)
  else w

/-- `yBlend` (lines 577–585): 0 within 0.5 mm of the nearer outline edge,
smoothstep over the 0.5–10 mm band, 1 beyond. -/
def yBlendAt (P : Params) (xPercent yPct : ℚ) : ℚ :=
  let dEdge := min |currentYAt P xPercent yPct - medialEdgeAt P xPercent|
    |currentYAt P xPercent yPct - lateralEdgeAt P xPercent|
  if dEdge < 1/2 then 0
  else if dEdge < 10 then smoothstep (min 1 (max 0 ((dEdge - 1/2) / (10 - 1/2))))
  else 1

/-- `xBlend` (lines 587–597): inside the heel-cup region and within 10 mm of
the heel, 0 below 0.5 mm and a smoothstep over the 0.5–10 mm band; 1
otherwise. -/
def xBlendAt (P : Params) (xPercent yPct : ℚ) : ℚ :=
  if xPercent ≤ heelCupRegionAt P yPct ∧ distHeelAt P xPercent < 10 then
    if distHeelAt P xPercent < 1/2 then 0
    else smoothstep (min 1 (max 0 ((distHeelAt P xPercent - 1/2) / (10 - 1/2))))
  else 1

/-- `blend = min (yBlend, xBlend)`. -/
def blendAt (P : Params) (xPercent yPct : ℚ) : ℚ :=
  min (yBlendAt P xPercent yPct) (xBlendAt P xPercent yPct)

/-- `blendedHeight = wallH * (1 − blend) + archH * blend`. -/
def blendedAt (P : Params) (pr : Prims) (xPercent yPct : ℚ) : ℚ :=
  wallHAt P pr xPercent yPct * (1 - blendAt P xPercent yPct) +
    archHAt P pr xPercent yPct * blendAt P xPercent yPct

/-- The total height of a profile sample (lines 609–610):
`totalH = baseThickness + blendedHeight`, clamped up to `baseThickness`. -/
def heightAt (P : Params) (pr : Prims) (xPercent yPct : ℚ) : ℚ :=
  if P.baseThickness + blendedAt P pr xPercent yPct < P.baseThickness then P.baseThickness
  else P.baseThickness + blendedAt P pr xPercent yPct

/-- The wall-profile-plus-heel-cup baseline of the specification: the same
evaluation with the arch contribution removed (`archH = 0`). -/
def baselineAt (P : Params) (pr : Prims) (xPercent yPct : ℚ) : ℚ :=
  if P.baseThickness + wallHAt P pr xPercent yPct * (1 - blendAt P xPercent yPct) <
      P.baseThickness then P.baseThickness
  else P.baseThickness + wallHAt P pr xPercent yPct * (1 - blendAt P xPercent yPct)

/-- x of the first control point of a source curve. -/
def srcStartX (src : List Point) : ℚ := (src.headD pt0).x

/-- x of the last control point of a source curve. -/
def srcEndX (src : List Point) : ℚ := (src.getLastD pt0).x

/-- `flatStartX = startX + totalLen * 0.05` of `createFlatCurve`. -/
def flatStartXOf (src : List Point) : ℚ :=
  srcStartX src + (srcEndX src - srcStartX src) * (5/100)

/-- `flatEndX = endX − totalLen * 0.05`. -/
def flatEndXOf (src : List Point) : ℚ :=
  srcEndX src - (srcEndX src - srcStartX src) * (5/100)

/-- The new x of point `i` in `createFlatCurve`: the padded endpoints, and
interior points remapped affinely into `[flatStartX, flatEndX]`. -/
def flatNewX (src : List Point) (i : Nat) : ℚ :=
  if i = 0 then flatStartXOf src
  else if i = src.length - 1 then flatEndXOf src
  else flatStartXOf src +
    (((src.getD i pt0).x - srcStartX src) / (srcEndX src - srcStartX src)) *
      (flatEndXOf src - flatStartXOf src)

/-- `startSnapY` of `createFlatCurve`: the start endpoint's y snapped to the
outline edge at `flatStartX` (`min` for direction −1, `max` otherwise), or
the original start y when the lookup fails. -/
def flatStartSnapY (outlinePoints sourcePoints : List Point) (direction : ℤ) : ℚ :=
  match getOutlineYAtX outlinePoints (flatStartXOf sourcePoints) with
  | some b => if direction = -1 then b.ymin else b.ymax
  | none => (sourcePoints.headD pt0).y

/-- `endSnapY` of `createFlatCurve`. -/
def flatEndSnapY (outlinePoints sourcePoints : List Point) (direction : ℤ) : ℚ :=
  match getOutlineYAtX outlinePoints (flatEndXOf sourcePoints) with
  | some b => if direction = -1 then b.ymin else b.ymax
  | none => (sourcePoints.getLastD pt0).y

/-- The `chordY` of `createFlatCurve` at point `i`: the solid curve's chord
evaluated at the point's relative position `t = (p.x − startX) / totalLen`. -/
def flatChordY (sourcePoints : List Point) (i : Nat) : ℚ :=
  (sourcePoints.headD pt0).y + ((sourcePoints.getLastD pt0).y - (sourcePoints.headD pt0).y) *
    (((sourcePoints.getD i pt0).x - srcStartX sourcePoints) /
      (srcEndX sourcePoints - srcStartX sourcePoints))

/-- The map callback of the open-curve branch of `createFlatCurve` for
point `i`: a point whose outline lookup fails keeps its original y;
endpoints are snapped; an interior point is rebuilt as the new chord (over
the snapped endpoints, at the remapped position `t_new`) plus 60 % of the
original bulge `p.y − chordY`. -/
def flatPointOf (outlinePoints sourcePoints : List Point) (direction : ℤ) (i : Nat) : Point :=
  match getOutlineYAtX outlinePoints (flatNewX sourcePoints i) with
  | none => ⟨flatNewX sourcePoints i, (sourcePoints.getD i pt0).y⟩
  | some _ =>
    if i = 0 then ⟨flatNewX sourcePoints i, flatStartSnapY outlinePoints sourcePoints direction⟩
    else if i = sourcePoints.length - 1 then
      ⟨flatNewX sourcePoints i, flatEndSnapY outlinePoints sourcePoints direction⟩
    else
      ⟨flatNewX sourcePoints i,
        (flatStartSnapY outlinePoints sourcePoints direction +
          (flatEndSnapY outlinePoints sourcePoints direction -
            flatStartSnapY outlinePoints sourcePoints direction) *
          ((flatNewX sourcePoints i - flatStartXOf sourcePoints) /
            (flatEndXOf sourcePoints - flatStartXOf sourcePoints))) +
        ((sourcePoints.getD i pt0).y - flatChordY sourcePoints i) * (6/10)⟩

/-- `createFlatCurve` of `ArchRegionEditorCanvas.tsx` (lines 98–157): for a
closed polygon, shrink 60 % toward the centroid; for an open curve, shift
the endpoints 5 % inward along x, snap their y to the outline edge
(`min` for direction −1, `max` for +1) when the outline lookup succeeds, and
rebuild each interior point as the new chord value plus 60 % of the original
bulge over the original chord. -/
def createFlatCurve (outlinePoints : List Point) (sourcePoints : List Point)
    (direction : ℤ) (isClosed : Bool := false) : List Point :=
  if sourcePoints.length < 2 then []
  else if isClosed then
    let cx := (sourcePoints.map Point.x).sum / (sourcePoints.length : ℚ)
    let cy := (sourcePoints.map Point.y).sum / (sourcePoints.length : ℚ)
    sourcePoints.map fun p => ⟨cx + (p.x - cx) * (6/10), cy + (p.y - cy) * (6/10)⟩
  else
    (List.range sourcePoints.length).map (flatPointOf outlinePoints sourcePoints direction)

/-- The eight editable curves of the arch region editor. -/
inductive CurveKind where
  | medial | lateral | transverse | medialFlat | lateralFlat
  | heelBridge | lateralBridge | metatarsalBridge
  deriving DecidableEq

/-- The control-point list of a given curve. -/
def curveOf (c : ArchCurves) : CurveKind → List Point
  | .medial => c.medial
  | .lateral => c.lateral
  | .transverse => c.transverse
  | .medialFlat => c.medialFlat
  | .lateralFlat => c.lateralFlat
  | .heelBridge => c.heelBridge
  | .lateralBridge => c.lateralBridge
  | .metatarsalBridge => c.metatarsalBridge

/-- The endpoint constraint of `handleMouseMove` (lines 600–607): when a
flat curve's endpoint is dragged, its y is snapped to the outline edge at
the cursor x (no-op for every other curve/point). -/
def constrainFlatEndpoint (outlinePoints : List Point) (c : ArchCurves) (k : CurveKind)
    (idx : Nat) (pos : Point) : Point :=
  if (k = .medialFlat ∨ k = .lateralFlat) ∧ (idx = 0 ∨ idx = (curveOf c k).length - 1) then
    match getOutlineYAtX outlinePoints pos.x with
    | some yB => if k = .medialFlat then ⟨pos.x, yB.ymin⟩ else ⟨pos.x, yB.ymax⟩
    | none => pos
  else pos

/-- The single-point branch of `handleMouseMove` (lines 597–641): constrain
flat-curve endpoints to the outline, write the dragged point, regenerate the
dependent flat curve of a dragged solid curve, and patch the bridge
endpoints anchored to the dragged curve. -/
def movePointUpdate (outlinePoints : List Point) (c : ArchCurves) (k : CurveKind)
    (idx : Nat) (pos : Point) : ArchCurves :=
  let points := (curveOf c k).set idx (constrainFlatEndpoint outlinePoints c k idx pos)
  match k with
  | .medial =>
    let c1 := { c with medial := points,
                       medialFlat := createFlatCurve outlinePoints points (-1) false }
    if 3 ≤ c1.metatarsalBridge.length ∧ 8 ≤ points.length then
      { c1 with metatarsalBridge :=
          c1.metatarsalBridge.set (c1.metatarsalBridge.length - 1) (points.getD 7 pt0) }
    else c1
  | .lateral =>
    { c with lateral := points,
             lateralFlat := createFlatCurve outlinePoints points 1 false }
  | .transverse =>
    let c1 := { c with transverse := points,
                       transverseFlat := createFlatCurve outlinePoints points 1 true }
    let c2 :=
      if 3 ≤ c1.lateralBridge.length ∧ 5 ≤ points.length then
        { c1 with lateralBridge :=
            c1.lateralBridge.set (c1.lateralBridge.length - 1) (points.getD 4 pt0) }
      else c1
    if 3 ≤ c2.metatarsalBridge.length ∧ 3 ≤ points.length then
      { c2 with metatarsalBridge := c2.metatarsalBridge.set 0 (points.getD 2 pt0) }
    else c2
  | .medialFlat => { c with medialFlat := points }
  | .lateralFlat => { c with lateralFlat := points }
  | .heelBridge => { c with heelBridge := points }
  | .lateralBridge => { c with lateralBridge := points }
  | .metatarsalBridge => { c with metatarsalBridge := points }

/-- The whole-curve branch of `handleMouseMove` (lines 570–595) for the
transverse polygon — the only curve for which `handleMouseDownCurve` enables
whole-curve dragging: translate every point and re-anchor the lateral and
metatarsal bridge endpoints. -/
def moveWholeTransverse (c : ArchCurves) (dx dy : ℚ) : ArchCurves :=
  let points := c.transverse.map fun p => (⟨p.x + dx, p.y + dy⟩ : Point)
  let c1 := { c with transverse := points }
  let c2 :=
    if 3 ≤ c1.lateralBridge.length ∧ 5 ≤ points.length then
      { c1 with lateralBridge :=
          c1.lateralBridge.set (c1.lateralBridge.length - 1) (points.getD 4 pt0) }
    else c1
  if 3 ≤ c2.metatarsalBridge.length ∧ 3 ≤ points.length then
    { c2 with metatarsalBridge := c2.metatarsalBridge.set 0 (points.getD 2 pt0) }
  else c2

/-- The bridge-anchoring invariant of the data model: the heel bridge runs
from `medial[0]` to `lateral[0]`, the lateral bridge from `lateral[last]`
to `transverse[4]`, and the metatarsal bridge from `transverse[2]` to
`medial[7]`. -/
abbrev bridgesOk (c : ArchCurves) : Prop :=
  c.heelBridge.head? = c.medial.head? ∧
  c.heelBridge.getLast? = c.lateral.head? ∧
  c.lateralBridge.head? = c.lateral.getLast? ∧
  c.lateralBridge.getLast? = c.transverse[4]? ∧
  c.metatarsalBridge.head? = c.transverse[2]? ∧
  c.metatarsalBridge.getLast? = c.medial[7]?

/-- The flat-endpoint part of the claimed invariant: each open flat curve's
endpoints coincide with its solid curve's endpoints. -/
abbrev flatEndpointsMatch (c : ArchCurves) : Prop :=
  c.medialFlat.head? = c.medial.head? ∧
  c.medialFlat.getLast? = c.medial.getLast? ∧
  c.lateralFlat.head? = c.lateral.head? ∧
  c.lateralFlat.getLast? = c.lateral.getLast?

/-- A 260 mm × 60 mm rectangular outline used for concrete evaluations. -/
def rectOutline : List Point := [⟨0, 0⟩, ⟨260, 0⟩, ⟨260, 60⟩, ⟨0, 60⟩]

/-- A concrete choice of the transcendental primitives (their values are
irrelevant on the evaluation paths of the concrete theorems below). -/
def idPrims : Prims := ⟨fun q => q, fun q => q, fun q => q⟩

/-- An empty landmark map (all defaults apply). -/
def defaultLm : LandmarkConfig := ⟨none, none, none, none, none, none, none⟩

/-- Arch settings with all three target heights zero and detail modes off. -/
def zeroArchSettings : ArchSettings where
  medial_start := 25
  medial_peak := 45
  medial_end := 75
  medial_height := 0
  lateral_start := 30
  lateral_peak := 40
  lateral_end := 50
  lateral_height := 0
  transverse_start := 40
  transverse_peak := 50
  transverse_end := 60
  transverse_height := 0
  medial_y_start := 0
  medial_y_end := 100
  lateral_y_start := 0
  lateral_y_end := 100
  transverse_y_start := 30
  transverse_y_end := 70
  medial_detail_enabled := false
  medial_detail_heights := ⟨0, 0, 0, 0⟩
  transverse_detail_enabled := false
  transverse_detail_heights := ⟨0, 0, 0, 0⟩

/-- A concrete parameter set: rectangular outline, default landmarks, no
curve data, all arch heights zero. -/
def baseParams : Params where
  baseThickness := 3
  heelCupHeight := 5
  medialWallHeight := 8
  medialWallPeakX := 40
  lateralWallHeight := 6
  lateralWallPeakX := 35
  archSettings := zeroArchSettings
  landmarkConfig := defaultLm
  isRightFoot := true
  archCurves := none
  outlinePoints := rectOutline

/-- The parameter set of the C4 discontinuity: both arch-start landmarks at
1 % (within the documented 0–100 range), so the heel-cup region boundary
lies 2.6 mm from the heel — inside the 10 mm x-transition band. -/
def earlyHeelParams : Params :=
  { baseParams with
    landmarkConfig := { defaultLm with arch_start := some 1, lateral_arch_start := some 1 } }

/-- Parameters with medial detail mode enabled and nonzero override heights
while all three arch target heights are zero. -/
def detailOnParams : Params :=
  { baseParams with
    archSettings :=
      { zeroArchSettings with
        medial_detail_enabled := true, medial_detail_heights := ⟨5, 5, 5, 5⟩ } }

/-- Parameters with a 6 mm medial arch target height (detail off). -/
def medialSixParams : Params :=
  { baseParams with archSettings := { zeroArchSettings with medial_height := 6 } }

/-- `medialSixParams` after the detail toggle: detail mode on with the
bell-curve-initialized heights. -/
def medialSixDetailParams : Params :=
  { medialSixParams with
    archSettings :=
      { medialSixParams.archSettings with
        medial_detail_enabled := true,
        medial_detail_heights := medialDetailInitHeights medialSixParams } }

/-- `medialSixParams` with detail mode enabled but the override heights left
all zero. -/
def medialSixDetailZeroParams : Params :=
  { medialSixParams with
    archSettings := { medialSixParams.archSettings with medial_detail_enabled := true } }

/-- C5: for every parameter set (and any primitive implementations) and
every sample point, the total height of the height-field evaluation is at
least `baseThickness`. -/
theorem C5_height_at_least_base (P : Params) (pr : Prims) (xPercent yPct : ℚ) :
    P.baseThickness ≤ heightAt P pr xPercent yPct := by
  unfold heightAt
  split
  · exact le_refl _
  · next h => exact le_of_not_lt h

/-- C1 (amended): the height-field evaluation computes
`blend = min (yBlend, xBlend)`, interpolates
`blended = wallH * (1 − blend) + archH * blend`, and returns
`baseThickness + max 0 blended` (equivalently
`max baseThickness (baseThickness + blended)`), not
`baseThickness + max baseThickness blended`. -/
theorem C1_final_blend_formula (P : Params) (pr : Prims) (xPercent yPct : ℚ) :
    heightAt P pr xPercent yPct =
      P.baseThickness + max 0 (blendedAt P pr xPercent yPct) ∧
    blendedAt P pr xPercent yPct =
      wallHAt P pr xPercent yPct * (1 - blendAt P xPercent yPct) +
        archHAt P pr xPercent yPct * blendAt P xPercent yPct ∧
    blendAt P xPercent yPct = min (yBlendAt P xPercent yPct) (xBlendAt P xPercent yPct) := by
  refine ⟨?_, rfl, rfl⟩
  unfold heightAt
  rcases le_or_lt 0 (blendedAt P pr xPercent yPct) with h | h
  · rw [max_eq_right h, if_neg (by linarith)]
  · rw [max_eq_left h.le, if_pos (by linarith), add_zero]

unseal Rat.add Rat.mul Rat.inv Rat.sub in
/-- C1 (counterexample): at the all-zero-arch parameter set and the sample
`x = 50 %, y = 50 %`, the evaluation returns `3` (the base thickness), while
the claimed formula `baseThickness + max (baseThickness, blended)` would
give `6`. -/
theorem C1_counterexample :
    heightAt baseParams idPrims 50 50 ≠
      baseParams.baseThickness +
        max baseParams.baseThickness (blendedAt baseParams idPrims 50 50) := by
  decide

unseal Rat.add Rat.mul Rat.inv Rat.sub in
/-- C4 (divergence witness): with both arch-start landmarks at 1 % — inside
their documented 0–100 range — the height field jumps by more than 5 mm
between `xPercent = 1` and `xPercent = 1.001` (0.0026 mm apart on a 260 mm
outline) at mid-width, across the heel-cup region boundary: the left limit
keeps `wallH * (1 − xBlend)` with `xBlend ≈ 0.125`, the right side blends
fully to the (zero) arch height. -/
theorem C4_heel_cup_region_jump :
    5 < heightAt earlyHeelParams idPrims 1 50 - heightAt earlyHeelParams idPrims (1001/1000) 50 ∧
    heightAt earlyHeelParams idPrims (1001/1000) 50 = 3 := by
  decide

theorem detailSpline_outside {x0 x1 x2 x3 x4 x5 y0 y1 y2 y3 y4 y5 xq : ℚ}
    (h : xq ≤ x0 ∨ x5 ≤ xq) :
    detailSpline x0 x1 x2 x3 x4 x5 y0 y1 y2 y3 y4 y5 xq = 0 := by
  unfold detailSpline
  rw [if_pos h]

theorem getArchHAtX_outside {targetX start peak endp maxH : ℚ}
    (h : targetX ≤ start ∨ endp ≤ targetX) :
    getArchHAtX targetX start peak endp maxH = 0 := by
  unfold getArchHAtX
  rw [if_pos h]

theorem archTransverseRawAt_outside (P : Params) {x : ℚ}
    (h : x ≤ P.archSettings.transverse_start ∨ P.archSettings.transverse_end ≤ x) :
    archTransverseRawAt P x = 0 := by
  unfold archTransverseRawAt
  cases hb : P.archSettings.transverse_detail_enabled with
  | false => simpa [hb] using getArchHAtX_outside h
  | true =>
    simp only [hb, if_true]
    exact detailSpline_outside h

theorem archTransverseAt_eq_zero (P : Params) (pr : Prims) {x : ℚ}
    (h : archTransverseRawAt P x = 0) : archTransverseAt P pr x = 0 := by
  unfold archTransverseAt
  simp [h]

theorem transverseArchHeightAt_eq_zero (P : Params) (pr : Prims) (x yPct : ℚ)
    (h : archTransverseAt P pr x = 0) : transverseArchHeightAt P pr x yPct = 0 := by
  unfold transverseArchHeightAt
  rcases hm : transverseRangeM P x with _ | r <;> simp [hm, h]

/-- C6: strictly outside `[transverse_start, transverse_end]` the transverse
arch contributes exactly zero, in bell-curve mode and in detail-spline mode
alike (the parameter set, including the two detail flags, is arbitrary):
the raw x-profile, the plateau-widened x-profile and the per-sample
transverse arch height are all zero. -/
theorem C6_transverse_zero_outside (P : Params) (pr : Prims) (x yPct : ℚ)
    (h : x < P.archSettings.transverse_start ∨ P.archSettings.transverse_end < x) :
    archTransverseRawAt P x = 0 ∧ archTransverseAt P pr x = 0 ∧
      transverseArchHeightAt P pr x yPct = 0 := by
  have hraw := archTransverseRawAt_outside P (h.imp le_of_lt le_of_lt)
  have hat := archTransverseAt_eq_zero P pr hraw
  exact ⟨hraw, hat, transverseArchHeightAt_eq_zero P pr x yPct hat⟩

/-- C6 (witness): at `x = 70`, right of the transverse interval `[40, 60]`
of the concrete parameter set, the transverse contribution is zero. -/
theorem C6_witness :
    ((70 : ℚ) < baseParams.archSettings.transverse_start ∨
      baseParams.archSettings.transverse_end < 70) ∧
    (archTransverseRawAt baseParams 70 = 0 ∧ archTransverseAt baseParams idPrims 70 = 0 ∧
      transverseArchHeightAt baseParams idPrims 70 50 = 0) :=
  ⟨Or.inr (by norm_num [baseParams, zeroArchSettings]),
   C6_transverse_zero_outside baseParams idPrims 70 50
     (Or.inr (by norm_num [baseParams, zeroArchSettings]))⟩

theorem detailSpline_zero_heights (x0 x1 x2 x3 x4 x5 xq : ℚ) :
    detailSpline x0 x1 x2 x3 x4 x5 0 0 0 0 0 0 xq = 0 := by
  unfold detailSpline hermiteVal
  split_ifs <;> simp

theorem getArchHAtX_zero_height (targetX start peak endp : ℚ) :
    getArchHAtX targetX start peak endp 0 = 0 := by
  unfold getArchHAtX
  split_ifs <;> simp

theorem archInnerAt_eq_zero (P : Params) (x : ℚ)
    (hh : P.archSettings.medial_height = 0)
    (hd : P.archSettings.medial_detail_enabled = false ∨
      P.archSettings.medial_detail_heights = ⟨0, 0, 0, 0⟩) :
    archInnerAt P x = 0 := by
  unfold archInnerAt
  cases hb : P.archSettings.medial_detail_enabled with
  | false => simp [hb, hh, getArchHAtX_zero_height]
  | true =>
    simp only [hb, if_true]
    unfold evaluateDetailArch
    rcases hd with hd | hd
    · rw [hb] at hd; cases hd
    · simp only [hd]
      exact detailSpline_zero_heights _ _ _ _ _ _ _

theorem archOuterAt_eq_zero (P : Params) (x : ℚ)
    (hh : P.archSettings.lateral_height = 0) : archOuterAt P x = 0 := by
  unfold archOuterAt
  rw [hh]
  exact getArchHAtX_zero_height _ _ _ _

theorem archTransverseRawAt_eq_zero (P : Params) (x : ℚ)
    (hh : P.archSettings.transverse_height = 0)
    (hd : P.archSettings.transverse_detail_enabled = false ∨
      P.archSettings.transverse_detail_heights = ⟨0, 0, 0, 0⟩) :
    archTransverseRawAt P x = 0 := by
  unfold archTransverseRawAt
  cases hb : P.archSettings.transverse_detail_enabled with
  | false => simp [hb, hh, getArchHAtX_zero_height]
  | true =>
    simp only [hb, if_true]
    unfold evaluateTransverseDetail
    rcases hd with hd | hd
    · rw [hb] at hd; cases hd
    · simp only [hd]
      exact detailSpline_zero_heights _ _ _ _ _ _ _

theorem medialArchContrib_zero (P : Params) (x yPct : ℚ) (h : archInnerAt P x = 0) :
    medialArchContrib P x yPct 0 = 0 := by
  unfold medialArchContrib
  rcases h1 : medialSolidYM P x with _ | sy <;> rcases h2 : medialFlatYM P x with _ | fy <;>
    simp only [h1, h2, h] <;> split_ifs <;> simp

theorem lateralArchContrib_zero (P : Params) (x yPct : ℚ) (h : archOuterAt P x = 0) :
    lateralArchContrib P x yPct 0 = 0 := by
  unfold lateralArchContrib
  rcases h1 : lateralSolidYM P x with _ | sy <;> rcases h2 : lateralFlatYM P x with _ | fy <;>
    simp only [h1, h2, h] <;> split_ifs <;> simp

theorem archHAt_eq_zero (P : Params) (pr : Prims) (x yPct : ℚ)
    (hi : archInnerAt P x = 0) (ho : archOuterAt P x = 0)
    (ht : archTransverseAt P pr x = 0) : archHAt P pr x yPct = 0 := by
  have hl : longitudinalAt P x yPct = 0 := by
    unfold longitudinalAt
    rw [medialArchContrib_zero P x yPct hi]
    exact lateralArchContrib_zero P x yPct ho
  have htr := transverseArchHeightAt_eq_zero P pr x yPct ht
  unfold archHAt
  rcases hp : archPadYRangeAt P x with _ | pad
  · simp [hp, hl, htr]
  · simp only [hp, hl, htr, hi, ho, ht]
    split_ifs <;> simp

/-- C8 (amended): if all three arch target heights are zero and each detail
mode is either disabled or has all-zero override heights, the height field
coincides exactly with the wall-profile-plus-heel-cup baseline (the same
evaluation with the arch contribution removed) at every sample point. -/
theorem C8_zero_arches_reduce_to_baseline (P : Params) (pr : Prims) (x yPct : ℚ)
    (hm : P.archSettings.medial_height = 0) (hl : P.archSettings.lateral_height = 0)
    (ht : P.archSettings.transverse_height = 0)
    (hdm : P.archSettings.medial_detail_enabled = false ∨
      P.archSettings.medial_detail_heights = ⟨0, 0, 0, 0⟩)
    (hdt : P.archSettings.transverse_detail_enabled = false ∨
      P.archSettings.transverse_detail_heights = ⟨0, 0, 0, 0⟩) :
    heightAt P pr x yPct = baselineAt P pr x yPct := by
  have hi := archInnerAt_eq_zero P x hm hdm
  have ho := archOuterAt_eq_zero P x hl
  have hraw := archTransverseRawAt_eq_zero P x ht hdt
  have hA := archHAt_eq_zero P pr x yPct hi ho (archTransverseAt_eq_zero P pr hraw)
  unfold heightAt baselineAt blendedAt
  rw [hA, zero_mul, add_zero]

/-- C8 (witness): at the concrete all-zero parameter set the height at
`x = 30 %, y = 50 %` equals the baseline. -/
theorem C8_witness :
    (baseParams.archSettings.medial_height = 0 ∧
      baseParams.archSettings.lateral_height = 0 ∧
      baseParams.archSettings.transverse_height = 0 ∧
      baseParams.archSettings.medial_detail_enabled = false) ∧
    heightAt baseParams idPrims 30 50 = baselineAt baseParams idPrims 30 50 :=
  ⟨⟨rfl, rfl, rfl, rfl⟩,
   C8_zero_arches_reduce_to_baseline baseParams idPrims 30 50 rfl rfl rfl
     (Or.inl rfl) (Or.inl rfl)⟩

unseal Rat.add Rat.mul Rat.inv Rat.sub in
/-- C8 (counterexample): with medial detail mode enabled and override
heights `[5,5,5,5]`, all three arch target heights are zero and yet the
height at `x = 50 %, y = 50 %` is `5.5`, not the `3` of the baseline — the
claim as stated (conditioning only on the target heights) is false. -/
theorem C8_counterexample :
    detailOnParams.archSettings.medial_height = 0 ∧
    detailOnParams.archSettings.lateral_height = 0 ∧
    detailOnParams.archSettings.transverse_height = 0 ∧
    heightAt detailOnParams idPrims 50 50 ≠ baselineAt detailOnParams idPrims 50 50 := by
  refine ⟨rfl, rfl, rfl, ?_⟩
  decide

theorem smoothstep_nonneg (t : ℚ) : 0 ≤ smoothstep t := by
  simp only [smoothstep]
  have h0 : (0:ℚ) ≤ max 0 (min 1 t) := le_max_left 0 _
  have h1 : max 0 (min 1 t) ≤ 1 := max_le (by norm_num) (min_le_left 1 t)
  nlinarith

theorem smoothstep_le_one (t : ℚ) : smoothstep t ≤ 1 := by
  simp only [smoothstep]
  have h0 : (0:ℚ) ≤ max 0 (min 1 t) := le_max_left 0 _
  have h1 : max 0 (min 1 t) ≤ 1 := max_le (by norm_num) (min_le_left 1 t)
  nlinarith [mul_nonneg (mul_nonneg h0 h0) h0, sq_nonneg (1 - max 0 (min 1 t)),
    mul_nonneg (sq_nonneg (1 - max 0 (min 1 t))) h0]

theorem bellCurveH_nonneg (xq start peak endp maxH : ℚ) (hh : 0 ≤ maxH) :
    0 ≤ bellCurveH xq start peak endp maxH := by
  unfold bellCurveH
  split_ifs
  · exact le_refl 0
  · exact mul_nonneg hh (smoothstep_nonneg _)
  · exact mul_nonneg hh (by linarith [smoothstep_le_one ((xq - peak) / (endp - peak))])

theorem round1_nonneg (q : ℚ) (h : 0 ≤ q) : 0 ≤ round1 q := by
  unfold round1 jsRound
  have : (0:ℤ) ≤ ⌊q * 10 + 1/2⌋ := Int.le_floor.mpr (by push_cast; linarith)
  positivity

theorem hermiteVal_one (ya yb m1 m2 : ℚ) (hy : 0 ≤ yb) : hermiteVal 1 ya yb m1 m2 = yb := by
  unfold hermiteVal
  norm_num
  exact hy

theorem detailSpline_at_knot1 {x0 x1 x2 x3 x4 x5 y0 y1 y2 y3 y4 y5 : ℚ}
    (h01 : x0 < x1) (h15 : x1 < x5) (hy : 0 ≤ y1) :
    detailSpline x0 x1 x2 x3 x4 x5 y0 y1 y2 y3 y4 y5 x1 = y1 := by
  unfold detailSpline
  rw [if_neg (by push_neg; exact ⟨h01, h15⟩), if_pos (le_refl x1),
    if_neg (not_le.mpr (sub_pos.mpr h01)), div_self (ne_of_gt (sub_pos.mpr h01))]
  exact hermiteVal_one _ _ _ _ hy

theorem detailSpline_at_knot2 {x0 x1 x2 x3 x4 x5 y0 y1 y2 y3 y4 y5 : ℚ}
    (h01 : x0 < x1) (h12 : x1 < x2) (h25 : x2 < x5) (hy : 0 ≤ y2) :
    detailSpline x0 x1 x2 x3 x4 x5 y0 y1 y2 y3 y4 y5 x2 = y2 := by
  unfold detailSpline
  rw [if_neg (by push_neg; exact ⟨by linarith, h25⟩), if_neg (not_le.mpr h12),
    if_pos (le_refl x2), if_neg (not_le.mpr (sub_pos.mpr h12)),
    div_self (ne_of_gt (sub_pos.mpr h12))]
  exact hermiteVal_one _ _ _ _ hy

theorem detailSpline_at_knot3 {x0 x1 x2 x3 x4 x5 y0 y1 y2 y3 y4 y5 : ℚ}
    (h01 : x0 < x1) (h12 : x1 < x2) (h23 : x2 < x3) (h35 : x3 < x5) (hy : 0 ≤ y3) :
    detailSpline x0 x1 x2 x3 x4 x5 y0 y1 y2 y3 y4 y5 x3 = y3 := by
  unfold detailSpline
  rw [if_neg (by push_neg; exact ⟨by linarith, h35⟩), if_neg (not_le.mpr (by linarith)),
    if_neg (not_le.mpr h23), if_pos (le_refl x3), if_neg (not_le.mpr (sub_pos.mpr h23)),
    div_self (ne_of_gt (sub_pos.mpr h23))]
  exact hermiteVal_one _ _ _ _ hy

theorem detailSpline_at_knot4 {x0 x1 x2 x3 x4 x5 y0 y1 y2 y3 y4 y5 : ℚ}
    (h01 : x0 < x1) (h12 : x1 < x2) (h23 : x2 < x3) (h34 : x3 < x4) (h45 : x4 < x5)
    (hy : 0 ≤ y4) :
    detailSpline x0 x1 x2 x3 x4 x5 y0 y1 y2 y3 y4 y5 x4 = y4 := by
  unfold detailSpline
  rw [if_neg (by push_neg; exact ⟨by linarith, h45⟩), if_neg (not_le.mpr (by linarith)),
    if_neg (not_le.mpr (by linarith)), if_neg (not_le.mpr h34), if_pos (le_refl x4),
    if_neg (not_le.mpr (sub_pos.mpr h34)), div_self (ne_of_gt (sub_pos.mpr h34))]
  exact hermiteVal_one _ _ _ _ hy

/-- The state after `handleDetailToggle true` fires with all-zero current
heights: detail mode enabled and the heights initialized from the bell
curve. -/
def withInitHeights (P : Params) : Params :=
  { P with
    archSettings :=
      { P.archSettings with
        medial_detail_enabled := true,
        medial_detail_heights := medialDetailInitHeights P } }

/-- C3 (amended): after the detail toggle initializes all-zero override
heights from the bell curve, the detail-mode evaluation at each of the four
landmark positions (subtalar, navicular, medial cuneiform, derived M5)
equals the bell-curve value at that position rounded to 0.1 mm — equality
with the raw bell value holds only up to that rounding.  Hypotheses: the
knots are strictly increasing between `medial_start` and `medial_end`, and
the target height is nonnegative. -/
theorem C3_detail_init_reproduces_bell (P : Params)
    (o1 : P.archSettings.medial_start < coalesce P.landmarkConfig.subtalar 30)
    (o2 : coalesce P.landmarkConfig.subtalar 30 < coalesce P.landmarkConfig.navicular 43)
    (o3 : coalesce P.landmarkConfig.navicular 43 < coalesce P.landmarkConfig.medial_cuneiform 55)
    (o4 : coalesce P.landmarkConfig.medial_cuneiform 55 < medialM5 P)
    (o5 : medialM5 P < P.archSettings.medial_end)
    (hh : 0 ≤ P.archSettings.medial_height) :
    archInnerAt (withInitHeights P) (coalesce P.landmarkConfig.subtalar 30) =
      round1 (bellCurveH (coalesce P.landmarkConfig.subtalar 30) P.archSettings.medial_start
        P.archSettings.medial_peak P.archSettings.medial_end P.archSettings.medial_height) ∧
    archInnerAt (withInitHeights P) (coalesce P.landmarkConfig.navicular 43) =
      round1 (bellCurveH (coalesce P.landmarkConfig.navicular 43) P.archSettings.medial_start
        P.archSettings.medial_peak P.archSettings.medial_end P.archSettings.medial_height) ∧
    archInnerAt (withInitHeights P) (coalesce P.landmarkConfig.medial_cuneiform 55) =
      round1 (bellCurveH (coalesce P.landmarkConfig.medial_cuneiform 55) P.archSettings.medial_start
        P.archSettings.medial_peak P.archSettings.medial_end P.archSettings.medial_height) ∧
    archInnerAt (withInitHeights P) (medialM5 P) =
      round1 (bellCurveH (medialM5 P) P.archSettings.medial_start
        P.archSettings.medial_peak P.archSettings.medial_end P.archSettings.medial_height) := by
  have hb : ∀ xq : ℚ, 0 ≤ round1 (bellCurveH xq P.archSettings.medial_start
      P.archSettings.medial_peak P.archSettings.medial_end P.archSettings.medial_height) :=
    fun xq => round1_nonneg _ (bellCurveH_nonneg _ _ _ _ _ hh)
  have hrw : ∀ xq : ℚ, archInnerAt (withInitHeights P) xq =
      detailSpline P.archSettings.medial_start (coalesce P.landmarkConfig.subtalar 30)
        (coalesce P.landmarkConfig.navicular 43) (coalesce P.landmarkConfig.medial_cuneiform 55)
        (medialM5 P) P.archSettings.medial_end
        0 ((medialDetailInitHeights P).h0) ((medialDetailInitHeights P).h1)
        ((medialDetailInitHeights P).h2) ((medialDetailInitHeights P).h3) 0 xq :=
    fun _ => rfl
  refine ⟨?_, ?_, ?_, ?_⟩ <;> rw [hrw]
  · exact detailSpline_at_knot1 o1 (by linarith) (hb _)
  · exact detailSpline_at_knot2 o1 o2 (by linarith) (hb _)
  · exact detailSpline_at_knot3 o1 o2 o3 (by linarith) (hb _)
  · exact detailSpline_at_knot4 o1 o2 o3 o4 o5 (hb _)

unseal Rat.add Rat.mul Rat.inv Rat.sub in
/-- C3 (counterexample): with detail mode enabled, the medial bell curve at
the subtalar landmark (x = 30, parameters 25/45/75 and height 6) is
`15/16 = 0.9375`, but (a) with the override heights still all zero the
detail evaluation gives `0`, and (b) even after the toggle's bell-curve
initialization it gives the rounded `0.9` — in neither case the same value
as the bell-curve formula. -/
theorem C3_counterexample :
    medialSixDetailZeroParams.archSettings.medial_detail_enabled = true ∧
    medialSixDetailZeroParams.archSettings.medial_detail_heights = ⟨0, 0, 0, 0⟩ ∧
    archInnerAt medialSixDetailZeroParams 30 ≠ bellCurveH 30 25 45 75 6 ∧
    archInnerAt medialSixDetailParams 30 ≠ bellCurveH 30 25 45 75 6 := by
  refine ⟨rfl, rfl, ?_, ?_⟩ <;> decide

/-- C3 (witness): the amended theorem applied to the concrete parameter set
with default landmarks (knots 25 < 30 < 43 < 55 < 63 < 75, height 6). -/
theorem C3_witness :
    (medialSixParams.archSettings.medial_start < coalesce medialSixParams.landmarkConfig.subtalar 30 ∧
      coalesce medialSixParams.landmarkConfig.subtalar 30 <
        coalesce medialSixParams.landmarkConfig.navicular 43 ∧
      coalesce medialSixParams.landmarkConfig.navicular 43 <
        coalesce medialSixParams.landmarkConfig.medial_cuneiform 55 ∧
      coalesce medialSixParams.landmarkConfig.medial_cuneiform 55 < medialM5 medialSixParams ∧
      medialM5 medialSixParams < medialSixParams.archSettings.medial_end ∧
      0 ≤ medialSixParams.archSettings.medial_height) ∧
    archInnerAt (withInitHeights medialSixParams) (coalesce medialSixParams.landmarkConfig.subtalar 30) =
      round1 (bellCurveH (coalesce medialSixParams.landmarkConfig.subtalar 30)
        medialSixParams.archSettings.medial_start medialSixParams.archSettings.medial_peak
        medialSixParams.archSettings.medial_end medialSixParams.archSettings.medial_height) :=
  ⟨⟨by norm_num [medialSixParams, baseParams, zeroArchSettings, defaultLm, coalesce],
    by norm_num [medialSixParams, baseParams, zeroArchSettings, defaultLm, coalesce],
    by norm_num [medialSixParams, baseParams, zeroArchSettings, defaultLm, coalesce],
    by norm_num [medialSixParams, baseParams, zeroArchSettings, defaultLm, coalesce, medialM5],
    by norm_num [medialSixParams, baseParams, zeroArchSettings, defaultLm, coalesce, medialM5],
    by norm_num [medialSixParams, baseParams, zeroArchSettings]⟩,
   (C3_detail_init_reproduces_bell medialSixParams
      (by norm_num [medialSixParams, baseParams, zeroArchSettings, defaultLm, coalesce])
      (by norm_num [medialSixParams, baseParams, zeroArchSettings, defaultLm, coalesce])
      (by norm_num [medialSixParams, baseParams, zeroArchSettings, defaultLm, coalesce])
      (by norm_num [medialSixParams, baseParams, zeroArchSettings, defaultLm, coalesce, medialM5])
      (by norm_num [medialSixParams, baseParams, zeroArchSettings, defaultLm, coalesce, medialM5])
      (by norm_num [medialSixParams, baseParams, zeroArchSettings])).1⟩

theorem length_filterMap_eq_length_filter {α β : Type} (l : List α) (f : α → Option β)
    (p : α → Bool) (h : ∀ a, (f a).isSome = p a) :
    (l.filterMap f).length = (l.filter p).length := by
  induction l with
  | nil => rfl
  | cons a t ih =>
    have ha := h a
    rcases hf : f a with _ | b
    · rw [hf] at ha
      simp only [List.filterMap_cons, hf, List.filter_cons, ← ha, Option.isSome_none]
      exact ih
    · rw [hf] at ha
      simp only [List.filterMap_cons, hf, List.filter_cons, ← ha, Option.isSome_some,
        List.length_cons]
      exact congrArg Nat.succ ih

theorem foldl_min_le_init (l : List ℚ) (a : ℚ) : l.foldl min a ≤ a := by
  induction l generalizing a with
  | nil => exact le_refl a
  | cons b t ih => exact le_trans (ih (min a b)) (min_le_left a b)

theorem init_le_foldl_max (l : List ℚ) (a : ℚ) : a ≤ l.foldl max a := by
  induction l generalizing a with
  | nil => exact le_refl a
  | cons b t ih => exact le_trans (le_max_left a b) (ih (max a b))

theorem minList_le_maxList (l : List ℚ) (h : l ≠ []) : minList l ≤ maxList l := by
  match l, h with
  | a :: t, _ =>
    exact le_trans (foldl_min_le_init t a) (init_le_foldl_max t a)

theorem outlineIntersections_length (points : List Point) (targetX : ℚ) :
    (outlineIntersections points targetX).length = crossingCount points targetX := by
  unfold outlineIntersections crossingCount
  apply length_filterMap_eq_length_filter
  intro i
  dsimp only
  split <;> simp_all

/-- C9: `getOutlineYAtX` is total: it returns `none` exactly when the
vertical line at `targetX` crosses fewer than two polygon edges (under the
source's edge test), and any returned range satisfies `min ≤ max`; and the
height-field evaluation falls back to the outline bounding box exactly when
its own y-range lookup returns `none`. -/
theorem C9_getOutlineYAtX_total (points : List Point) (targetX : ℚ) (P : Params) (x : ℚ) :
    ((getOutlineYAtX points targetX = none ↔ crossingCount points targetX < 2) ∧
      ∀ r : YRange, getOutlineYAtX points targetX = some r → r.ymin ≤ r.ymax) ∧
    (getYRangeAtX P.outlinePoints (currentXAt P x) = none →
      currentYMinAt P x = outlineMinY P ∧ currentYMaxAt P x = outlineMaxY P) := by
  have hlen := outlineIntersections_length points targetX
  refine ⟨⟨?_, ?_⟩, ?_⟩
  · simp only [getOutlineYAtX]
    split_ifs with h
    · simpa using hlen ▸ h
    · simp only [reduceCtorEq, false_iff]
      exact fun hc => h (hlen ▸ hc)
  · intro r hr
    simp only [getOutlineYAtX] at hr
    split_ifs at hr with h
    · rcases Option.some_injective _ hr with rfl
      have hne : outlineIntersections points targetX ≠ [] := by
        intro he
        rw [he] at h
        exact h (by norm_num)
      exact minList_le_maxList _ hne
  · intro h
    unfold currentYMinAt currentYMaxAt outlineBoundsAt
    rw [h]
    exact ⟨rfl, rfl⟩

unseal Rat.add Rat.mul Rat.inv Rat.sub in
/-- C9 (witness): on the rectangular outline the lookup at `x = 130`
returns `{min := 0, max := 60}` with `min ≤ max`, and at the 200 % station
(beyond the outline) the evaluation uses the bounding-box fallback. -/
theorem C9_witness :
    getOutlineYAtX rectOutline 130 = some ⟨0, 60⟩ ∧
    (YRange.ymin ⟨0, 60⟩ ≤ YRange.ymax ⟨0, 60⟩) ∧
    (currentYMinAt baseParams 200 = outlineMinY baseParams ∧
      currentYMaxAt baseParams 200 = outlineMaxY baseParams) :=
  ⟨by decide,
   (C9_getOutlineYAtX_total rectOutline 130 baseParams 200).1.2 ⟨0, 60⟩ (by decide),
   (C9_getOutlineYAtX_total rectOutline 130 baseParams 200).2 (by decide)⟩

theorem resampleInner_preserves (p1 p2 : Point) (segLen step : ℚ) (tc : Nat) :
    ∀ (fuel : Nat) (nd ad : ℚ) (acc : List Point), acc ≠ [] →
      (resampleInner p1 p2 segLen step tc fuel nd ad acc).2.head? = acc.head? ∧
      (resampleInner p1 p2 segLen step tc fuel nd ad acc).2 ≠ [] := by
  intro fuel
  induction fuel with
  | zero => exact fun nd ad acc h => ⟨rfl, h⟩
  | succ n ih =>
    intro nd ad acc h
    rw [resampleInner]
    split_ifs with hc hl
    · have hne : acc ++ [(⟨p1.x + (p2.x - p1.x) * ((nd - ad) / segLen),
          p1.y + (p2.y - p1.y) * ((nd - ad) / segLen)⟩ : Point)] ≠ [] := by
        simp
      refine ⟨?_, (ih _ _ _ hne).2⟩
      rw [(ih _ _ _ hne).1, List.head?_append]
      rcases acc with _ | ⟨b, t⟩
      · exact absurd rfl h
      · rfl
    · exact ih _ _ _ h
    · exact ⟨rfl, h⟩

theorem foldl_preserve {α β : Type} (f : β → α → β) (Q : β → Prop)
    (hf : ∀ b a, Q b → Q (f b a)) : ∀ (l : List α) (b : β), Q b → Q (l.foldl f b) := by
  intro l
  induction l with
  | nil => exact fun b h => h
  | cons a t ih => exact fun b h => ih (f b a) (hf b a h)

theorem take_append_replicate_spec (l : List Point) (tc : Nat) (h1 : 1 ≤ tc) (a : Point)
    (hhead : l.head? = some a) (lp : Point) :
    ((l ++ List.replicate (tc - l.length) lp).take tc).length = tc ∧
    ((l ++ List.replicate (tc - l.length) lp).take tc).head? = some a := by
  obtain ⟨t, rfl⟩ : ∃ t, l = a :: t := by
    rcases List.head?_eq_some_iff.mp hhead with ⟨ys, rfl⟩
    exact ⟨ys, rfl⟩
  obtain ⟨m, rfl⟩ : ∃ m, tc = m + 1 := ⟨tc - 1, by omega⟩
  constructor
  · rw [List.length_take, List.length_append, List.length_replicate]
    simp only [List.length_cons]
    omega
  · rw [List.cons_append, List.take_succ_cons]
    rfl

/-- C10: for at least two input points and `targetCount ≥ 1`,
`resamplePolygon` returns exactly `targetCount` points and keeps the first
input point as its first element (padding with the last input point or
truncating as needed). -/
theorem C10_resamplePolygon_count_and_head (pr : Prims) (points : List Point)
    (targetCount : Nat) (h2 : 2 ≤ points.length) (h1 : 1 ≤ targetCount) :
    (resamplePolygon pr points targetCount).length = targetCount ∧
    (resamplePolygon pr points targetCount).head? = points.head? := by
  obtain ⟨a, t, rfl⟩ : ∃ a t, points = a :: t := by
    match points, h2 with
    | a :: t, _ => exact ⟨a, t, rfl⟩
  rw [resamplePolygon, if_neg (by omega)]
  dsimp only
  have hQ := foldl_preserve
    (resampleStep pr ((a :: t) ++ [(a :: t).headD pt0])
      (perimeter pr (a :: t) / (targetCount : ℚ)) targetCount)
    (fun st => st.2.2.head? = some a ∧ st.2.2 ≠ [])
    (fun st i h => by
      unfold resampleStep
      dsimp only
      have hp := resampleInner_preserves ((a :: t ++ [(a :: t).headD pt0]).getD i pt0)
        ((a :: t ++ [(a :: t).headD pt0]).getD (i + 1) pt0)
        (distP pr ((a :: t ++ [(a :: t).headD pt0]).getD i pt0)
          ((a :: t ++ [(a :: t).headD pt0]).getD (i + 1) pt0))
        (perimeter pr (a :: t) / (targetCount : ℚ)) targetCount (targetCount + 1)
        st.1 st.2.1 st.2.2 h.2
      exact ⟨hp.1.trans h.1, hp.2⟩)
    (List.range (((a :: t) ++ [(a :: t).headD pt0]).length - 1))
    (perimeter pr (a :: t) / (targetCount : ℚ), 0, [(a :: t).headD pt0])
    ⟨rfl, by simp⟩
  have hspec := take_append_replicate_spec _ targetCount h1 a hQ.1 ((a :: t).getLastD pt0)
  exact ⟨hspec.1, hspec.2⟩

theorem createFlatCurve_length (outlinePoints sourcePoints : List Point) (direction : ℤ)
    (h2 : 2 ≤ sourcePoints.length) :
    (createFlatCurve outlinePoints sourcePoints direction false).length =
      sourcePoints.length := by
  rw [createFlatCurve, if_neg (by omega)]
  simp

theorem createFlatCurve_getElem (outlinePoints sourcePoints : List Point) (direction : ℤ)
    (h2 : 2 ≤ sourcePoints.length) (i : Nat) (hi : i < sourcePoints.length) :
    (createFlatCurve outlinePoints sourcePoints direction false)[i]? =
      some (flatPointOf outlinePoints sourcePoints direction i) := by
  rw [createFlatCurve, if_neg (by omega)]
  simp [List.getElem?_range hi]

/-- C7: for an open solid curve with at least two control points and
distinct endpoint x positions, when the outline lookups at the inset
endpoint positions succeed, `createFlatCurve`
(a) keeps the control-point count,
(b) moves the start/end x inward by 5 % of the x-extent and re-snaps the
endpoint ys to the outline edge found there (`min` for direction −1,
`max` otherwise), and
(c) places every interior point whose outline lookup succeeds at the
remapped x with y equal to the new chord (through the snapped endpoints, at
the same relative position `t`) plus 60 % of the solid curve's bulge
`p.y − chordY` over its own chord. -/
theorem C7_flat_curve_geometry (outline src : List Point) (direction : ℤ) (b1 b2 : YRange)
    (h2 : 2 ≤ src.length)
    (hne : srcStartX src ≠ srcEndX src)
    (hb1 : getOutlineYAtX outline (flatStartXOf src) = some b1)
    (hb2 : getOutlineYAtX outline (flatEndXOf src) = some b2) :
    (createFlatCurve outline src direction false).length = src.length ∧
    (createFlatCurve outline src direction false).head? =
      some ⟨flatStartXOf src, if direction = -1 then b1.ymin else b1.ymax⟩ ∧
    (createFlatCurve outline src direction false).getLast? =
      some ⟨flatEndXOf src, if direction = -1 then b2.ymin else b2.ymax⟩ ∧
    ∀ i, 0 < i → i < src.length - 1 →
      (getOutlineYAtX outline (flatNewX src i)).isSome →
      (createFlatCurve outline src direction false)[i]? =
        some ⟨flatStartXOf src + (((src.getD i pt0).x - srcStartX src) /
            (srcEndX src - srcStartX src)) * (flatEndXOf src - flatStartXOf src),
          ((if direction = -1 then b1.ymin else b1.ymax) +
            ((if direction = -1 then b2.ymin else b2.ymax) -
              (if direction = -1 then b1.ymin else b1.ymax)) *
            (((src.getD i pt0).x - srcStartX src) / (srcEndX src - srcStartX src))) +
          ((src.getD i pt0).y - flatChordY src i) * (6/10)⟩ := by
  have hd0 : flatEndXOf src - flatStartXOf src ≠ 0 := by
    have hdiff : flatEndXOf src - flatStartXOf src = (srcEndX src - srcStartX src) * (9/10) := by
      unfold flatStartXOf flatEndXOf
      ring
    rw [hdiff]
    exact mul_ne_zero (sub_ne_zero.mpr (Ne.symm hne)) (by norm_num)
  have hsnap1 : flatStartSnapY outline src direction =
      if direction = -1 then b1.ymin else b1.ymax := by
    unfold flatStartSnapY
    rw [hb1]
  have hsnap2 : flatEndSnapY outline src direction =
      if direction = -1 then b2.ymin else b2.ymax := by
    unfold flatEndSnapY
    rw [hb2]
  have hfn0 : flatNewX src 0 = flatStartXOf src := by
    simp [flatNewX]
  have hlast_ne : src.length - 1 ≠ 0 := by omega
  have hfnL : flatNewX src (src.length - 1) = flatEndXOf src := by
    simp [flatNewX, hlast_ne]
  have hlen := createFlatCurve_length outline src direction h2
  refine ⟨hlen, ?_, ?_, ?_⟩
  · rw [List.head?_eq_getElem?, createFlatCurve_getElem outline src direction h2 0 (by omega)]
    simp only [flatPointOf, hfn0, hb1, hsnap1]
    simp
  · rw [List.getLast?_eq_getElem?, hlen,
      createFlatCurve_getElem outline src direction h2 (src.length - 1) (by omega)]
    simp only [flatPointOf, hfnL, hb2, hsnap2, hlast_ne, if_false]
    simp
  · intro i hi0 hiN hsome
    obtain ⟨yB, hyB⟩ := Option.isSome_iff_exists.mp hsome
    have hne0 : i ≠ 0 := by omega
    have hneL : i ≠ src.length - 1 := by omega
    have hfni : flatNewX src i = flatStartXOf src +
        (((src.getD i pt0).x - srcStartX src) / (srcEndX src - srcStartX src)) *
          (flatEndXOf src - flatStartXOf src) := by
      simp [flatNewX, hne0, hneL]
    have htnew : (flatNewX src i - flatStartXOf src) / (flatEndXOf src - flatStartXOf src) =
        ((src.getD i pt0).x - srcStartX src) / (srcEndX src - srcStartX src) := by
      rw [hfni, add_sub_cancel_left, mul_div_cancel_right₀ _ hd0]
    rw [createFlatCurve_getElem outline src direction h2 i (by omega)]
    rw [hfni] at hyB
    simp only [flatPointOf, hfni, hyB, hne0, hneL, if_false, hsnap1, hsnap2]
    rw [add_sub_cancel_left, mul_div_cancel_right₀ _ hd0]

/-- A concrete three-point solid curve used by the flat-curve witness. -/
def c7src : List Point := [⟨100, 0⟩, ⟨120, 20⟩, ⟨140, 0⟩]

unseal Rat.add Rat.mul Rat.inv Rat.sub in
/-- C7 (witness): the flat-curve characterization applied to a concrete
three-point curve over the rectangular outline (x-extent 100…140, inset
endpoints at 102 and 138 snapped to the lower outline edge y = 0). -/
theorem C7_witness :
    (2 ≤ c7src.length ∧ srcStartX c7src ≠ srcEndX c7src ∧
      getOutlineYAtX rectOutline (flatStartXOf c7src) = some ⟨0, 60⟩ ∧
      getOutlineYAtX rectOutline (flatEndXOf c7src) = some ⟨0, 60⟩) ∧
    ((createFlatCurve rectOutline c7src (-1) false).length = c7src.length ∧
      (createFlatCurve rectOutline c7src (-1) false).head? =
        some ⟨flatStartXOf c7src,
          if (-1 : ℤ) = -1 then YRange.ymin ⟨0, 60⟩ else YRange.ymax ⟨0, 60⟩⟩ ∧
      (createFlatCurve rectOutline c7src (-1) false).getLast? =
        some ⟨flatEndXOf c7src,
          if (-1 : ℤ) = -1 then YRange.ymin ⟨0, 60⟩ else YRange.ymax ⟨0, 60⟩⟩ ∧
      ∀ i, 0 < i → i < c7src.length - 1 →
        (getOutlineYAtX rectOutline (flatNewX c7src i)).isSome →
        (createFlatCurve rectOutline c7src (-1) false)[i]? =
          some ⟨flatStartXOf c7src + (((c7src.getD i pt0).x - srcStartX c7src) /
              (srcEndX c7src - srcStartX c7src)) * (flatEndXOf c7src - flatStartXOf c7src),
            ((if (-1 : ℤ) = -1 then YRange.ymin ⟨0, 60⟩ else YRange.ymax ⟨0, 60⟩) +
              ((if (-1 : ℤ) = -1 then YRange.ymin ⟨0, 60⟩ else YRange.ymax ⟨0, 60⟩) -
                (if (-1 : ℤ) = -1 then YRange.ymin ⟨0, 60⟩ else YRange.ymax ⟨0, 60⟩)) *
              (((c7src.getD i pt0).x - srcStartX c7src) / (srcEndX c7src - srcStartX c7src))) +
            ((c7src.getD i pt0).y - flatChordY c7src i) * (6/10)⟩) :=
  ⟨⟨by decide, by decide, by decide, by decide⟩,
   C7_flat_curve_geometry rectOutline c7src (-1) ⟨0, 60⟩ ⟨0, 60⟩
     (by decide) (by decide) (by decide) (by decide)⟩

theorem head?_set_of_ne {α : Type} (l : List α) (i : Nat) (a : α) (h : i ≠ 0) :
    (l.set i a).head? = l.head? := by
  rw [List.head?_eq_getElem?, List.head?_eq_getElem?, List.getElem?_set_ne h]

theorem getLast?_set_of_ne {α : Type} (l : List α) (i : Nat) (a : α) (h : i ≠ l.length - 1) :
    (l.set i a).getLast? = l.getLast? := by
  rw [List.getLast?_eq_getElem?, List.getLast?_eq_getElem?, List.length_set,
    List.getElem?_set_ne h]

theorem getLast?_set_last {α : Type} (l : List α) (a : α) (h : l ≠ []) :
    (l.set (l.length - 1) a).getLast? = some a := by
  rw [List.getLast?_eq_getElem?, List.length_set]
  exact List.getElem?_set_self (by
    have : 0 < l.length := List.length_pos.mpr h
    omega)

theorem head?_set_zero {α : Type} (l : List α) (a : α) (h : l ≠ []) :
    (l.set 0 a).head? = some a := by
  rw [List.head?_eq_getElem?]
  exact List.getElem?_set_self (List.length_pos.mpr h)

theorem some_getD_eq_getElem? {α : Type} (l : List α) (i : Nat) (d : α) (h : i < l.length) :
    (some (l.getD i d) : Option α) = l[i]? := by
  rw [List.getD_eq_getElem?_getD, List.getElem?_eq_getElem h]
  rfl

theorem constrainFlatEndpoint_solid (outlinePoints : List Point) (c : ArchCurves)
    (k : CurveKind) (idx : Nat) (pos : Point)
    (hk : k ≠ CurveKind.medialFlat ∧ k ≠ CurveKind.lateralFlat) :
    constrainFlatEndpoint outlinePoints c k idx pos = pos := by
  unfold constrainFlatEndpoint
  rw [if_neg]
  intro h
  rcases h.1 with h1 | h1
  · exact hk.1 h1
  · exact hk.2 h1

theorem bridgesOk_movePoint_medial (outline : List Point) (c : ArchCurves) (idx : Nat)
    (pos : Point) (hb : bridgesOk c) (hm : c.medial.length = 8)
    (hmb : c.metatarsalBridge.length = 3) (h0 : 0 < idx) (h7 : idx < 7) :
    bridgesOk (movePointUpdate outline c CurveKind.medial idx pos) ∧
    (movePointUpdate outline c CurveKind.medial idx pos).medialFlat =
      createFlatCurve outline (c.medial.set idx pos) (-1) false := by
  obtain ⟨hb1, hb2, hb3, hb4, hb5, hb6⟩ := hb
  have hguard : 3 ≤ c.metatarsalBridge.length ∧ 8 ≤ (c.medial.set idx pos).length := by
    rw [List.length_set, hm, hmb]
    exact ⟨le_refl 3, le_refl 8⟩
  have hred : movePointUpdate outline c CurveKind.medial idx pos =
      { c with medial := c.medial.set idx pos,
               medialFlat := createFlatCurve outline (c.medial.set idx pos) (-1) false,
               metatarsalBridge := c.metatarsalBridge.set (c.metatarsalBridge.length - 1)
                 ((c.medial.set idx pos).getD 7 pt0) } := by
    unfold movePointUpdate
    rw [constrainFlatEndpoint_solid outline c _ idx pos (by exact ⟨by simp, by simp⟩)]
    dsimp only [curveOf]
    rw [if_pos hguard]
  rw [hred]
  have hmb_ne : c.metatarsalBridge ≠ [] := by
    intro he
    rw [he] at hmb
    exact absurd hmb (by norm_num)
  refine ⟨⟨?_, hb2, hb3, hb4, ?_, ?_⟩, rfl⟩
  · rw [hb1, head?_set_of_ne _ _ _ (by omega)]
  · rw [head?_set_of_ne _ _ _ (by omega)]
    exact hb5
  · rw [getLast?_set_last _ _ hmb_ne,
      some_getD_eq_getElem? _ 7 pt0 (by rw [List.length_set]; omega),
      List.getElem?_set_ne (by omega)]

theorem bridgesOk_movePoint_lateral (outline : List Point) (c : ArchCurves) (idx : Nat)
    (pos : Point) (hb : bridgesOk c) (hl : c.lateral.length = 5)
    (h0 : 0 < idx) (h4 : idx < 4) :
    bridgesOk (movePointUpdate outline c CurveKind.lateral idx pos) ∧
    (movePointUpdate outline c CurveKind.lateral idx pos).lateralFlat =
      createFlatCurve outline (c.lateral.set idx pos) 1 false := by
  obtain ⟨hb1, hb2, hb3, hb4, hb5, hb6⟩ := hb
  have hred : movePointUpdate outline c CurveKind.lateral idx pos =
      { c with lateral := c.lateral.set idx pos,
               lateralFlat := createFlatCurve outline (c.lateral.set idx pos) 1 false } := by
    unfold movePointUpdate
    rw [constrainFlatEndpoint_solid outline c _ idx pos (by exact ⟨by simp, by simp⟩)]
    dsimp only [curveOf]
  rw [hred]
  refine ⟨⟨hb1, ?_, ?_, hb4, hb5, hb6⟩, rfl⟩
  · rw [hb2, head?_set_of_ne _ _ _ (by omega)]
  · rw [hb3, getLast?_set_of_ne _ _ _ (by omega)]

theorem bridgesOk_movePoint_transverse (outline : List Point) (c : ArchCurves) (idx : Nat)
    (pos : Point) (hb : bridgesOk c) (ht : c.transverse.length = 8)
    (hlb : c.lateralBridge.length = 3) (hmb : c.metatarsalBridge.length = 3) :
    bridgesOk (movePointUpdate outline c CurveKind.transverse idx pos) := by
  obtain ⟨hb1, hb2, hb3, hb4, hb5, hb6⟩ := hb
  have hlb_ne : c.lateralBridge ≠ [] := by
    intro he
    rw [he] at hlb
    exact absurd hlb (by norm_num)
  have hmb_ne : c.metatarsalBridge ≠ [] := by
    intro he
    rw [he] at hmb
    exact absurd hmb (by norm_num)
  have hg1 : 3 ≤ c.lateralBridge.length ∧ 5 ≤ (c.transverse.set idx pos).length := by
    rw [List.length_set]
    omega
  have hg2 : 3 ≤ c.metatarsalBridge.length ∧ 3 ≤ (c.transverse.set idx pos).length := by
    rw [List.length_set]
    omega
  have hred : movePointUpdate outline c CurveKind.transverse idx pos =
      { c with transverse := c.transverse.set idx pos,
               transverseFlat := createFlatCurve outline (c.transverse.set idx pos) 1 true,
               lateralBridge := c.lateralBridge.set (c.lateralBridge.length - 1)
                 ((c.transverse.set idx pos).getD 4 pt0),
               metatarsalBridge := c.metatarsalBridge.set 0
                 ((c.transverse.set idx pos).getD 2 pt0) } := by
    unfold movePointUpdate
    rw [constrainFlatEndpoint_solid outline c _ idx pos (by exact ⟨by simp, by simp⟩)]
    dsimp only [curveOf]
    rw [if_pos hg1]
    dsimp only
    rw [if_pos hg2]
  rw [hred]
  refine ⟨hb1, hb2, ?_, ?_, ?_, ?_⟩ <;> dsimp only
  · rw [head?_set_of_ne _ _ _ (by omega)]
    exact hb3
  · rw [getLast?_set_last _ _ hlb_ne,
      some_getD_eq_getElem? _ 4 pt0 (by rw [List.length_set]; omega)]
  · rw [head?_set_zero _ _ hmb_ne,
      some_getD_eq_getElem? _ 2 pt0 (by rw [List.length_set]; omega)]
  · rw [getLast?_set_of_ne _ _ _ (by omega)]
    exact hb6

theorem bridgesOk_moveWholeTransverse (c : ArchCurves) (dx dy : ℚ) (hb : bridgesOk c)
    (ht : c.transverse.length = 8) (hlb : c.lateralBridge.length = 3)
    (hmb : c.metatarsalBridge.length = 3) :
    bridgesOk (moveWholeTransverse c dx dy) := by
  obtain ⟨hb1, hb2, hb3, hb4, hb5, hb6⟩ := hb
  have hlb_ne : c.lateralBridge ≠ [] := by
    intro he
    rw [he] at hlb
    exact absurd hlb (by norm_num)
  have hmb_ne : c.metatarsalBridge ≠ [] := by
    intro he
    rw [he] at hmb
    exact absurd hmb (by norm_num)
  have hg1 : 3 ≤ c.lateralBridge.length ∧
      5 ≤ (c.transverse.map fun p => (⟨p.x + dx, p.y + dy⟩ : Point)).length := by
    rw [List.length_map]
    omega
  have hg2 : 3 ≤ c.metatarsalBridge.length ∧
      3 ≤ (c.transverse.map fun p => (⟨p.x + dx, p.y + dy⟩ : Point)).length := by
    rw [List.length_map]
    omega
  have hred : moveWholeTransverse c dx dy =
      { c with transverse := c.transverse.map fun p => (⟨p.x + dx, p.y + dy⟩ : Point),
               lateralBridge := c.lateralBridge.set (c.lateralBridge.length - 1)
                 ((c.transverse.map fun p => (⟨p.x + dx, p.y + dy⟩ : Point)).getD 4 pt0),
               metatarsalBridge := c.metatarsalBridge.set 0
                 ((c.transverse.map fun p => (⟨p.x + dx, p.y + dy⟩ : Point)).getD 2 pt0) } := by
    unfold moveWholeTransverse
    dsimp only
    rw [if_pos hg1]
    dsimp only
    rw [if_pos hg2]
  rw [hred]
  refine ⟨hb1, hb2, ?_, ?_, ?_, ?_⟩ <;> dsimp only
  · rw [head?_set_of_ne _ _ _ (by omega)]
    exact hb3
  · rw [getLast?_set_last _ _ hlb_ne,
      some_getD_eq_getElem? _ 4 pt0 (by rw [List.length_map]; omega)]
  · rw [head?_set_zero _ _ hmb_ne,
      some_getD_eq_getElem? _ 2 pt0 (by rw [List.length_map]; omega)]
  · rw [getLast?_set_of_ne _ _ _ (by omega)]
    exact hb6

/-- C2 (amended): with the app's curve shapes (8/5/8-point solid curves,
4/3/3-point bridges) and the bridge anchors consistent, every reachable arch
edit keeps the bridge anchors consistent — dragging an interior medial or
lateral control point, dragging any transverse control point, and dragging
the whole transverse polygon — and each solid-curve edit regenerates its
dependent flat curve with `createFlatCurve` (whose endpoints are snapped to
the outline at axis positions 5 % inward of the solid endpoints, not
coincident with them). -/
theorem C2_edit_sync (outline : List Point) (c : ArchCurves)
    (hm : c.medial.length = 8) (hl : c.lateral.length = 5) (ht : c.transverse.length = 8)
    (hlb : c.lateralBridge.length = 3)
    (hmb : c.metatarsalBridge.length = 3) (hb : bridgesOk c) :
    (∀ idx pos, 0 < idx → idx < 7 →
      bridgesOk (movePointUpdate outline c CurveKind.medial idx pos) ∧
      (movePointUpdate outline c CurveKind.medial idx pos).medialFlat =
        createFlatCurve outline (c.medial.set idx pos) (-1) false) ∧
    (∀ idx pos, 0 < idx → idx < 4 →
      bridgesOk (movePointUpdate outline c CurveKind.lateral idx pos) ∧
      (movePointUpdate outline c CurveKind.lateral idx pos).lateralFlat =
        createFlatCurve outline (c.lateral.set idx pos) 1 false) ∧
    (∀ idx pos, idx < 8 → bridgesOk (movePointUpdate outline c CurveKind.transverse idx pos)) ∧
    (∀ dx dy, bridgesOk (moveWholeTransverse c dx dy)) :=
  ⟨fun idx pos h0 h7 => bridgesOk_movePoint_medial outline c idx pos hb hm hmb h0 h7,
   fun idx pos h0 h4 => bridgesOk_movePoint_lateral outline c idx pos hb hl h0 h4,
   fun idx pos _ => bridgesOk_movePoint_transverse outline c idx pos hb ht hlb hmb,
   fun dx dy => bridgesOk_moveWholeTransverse c dx dy hb ht hlb hmb⟩

/-- A concrete consistent curve set with the app's shapes (8/5/8-point
solid curves, 4/3/3-point bridges) whose bridge anchors are in sync and
whose flat curves happen to share their solid curves' endpoints. -/
def c2curves : ArchCurves where
  medial := [⟨100, 0⟩, ⟨105, 5⟩, ⟨110, 8⟩, ⟨115, 9⟩, ⟨120, 8⟩, ⟨125, 6⟩, ⟨130, 3⟩, ⟨140, 0⟩]
  medialFlat := [⟨100, 0⟩, ⟨105, 5⟩, ⟨110, 8⟩, ⟨115, 9⟩, ⟨120, 8⟩, ⟨125, 6⟩, ⟨130, 3⟩, ⟨140, 0⟩]
  lateral := [⟨90, 60⟩, ⟨100, 55⟩, ⟨110, 52⟩, ⟨120, 55⟩, ⟨130, 60⟩]
  lateralFlat := [⟨90, 60⟩, ⟨100, 55⟩, ⟨110, 52⟩, ⟨120, 55⟩, ⟨130, 60⟩]
  transverse := [⟨150, 20⟩, ⟨160, 15⟩, ⟨170, 30⟩, ⟨160, 45⟩, ⟨150, 40⟩, ⟨145, 42⟩, ⟨140, 30⟩, ⟨145, 18⟩]
  transverseFlat := []
  heelBridge := [⟨100, 0⟩, ⟨95, 20⟩, ⟨95, 40⟩, ⟨90, 60⟩]
  lateralBridge := [⟨130, 60⟩, ⟨140, 50⟩, ⟨150, 40⟩]
  metatarsalBridge := [⟨170, 30⟩, ⟨155, 15⟩, ⟨140, 0⟩]

unseal Rat.add Rat.mul Rat.inv Rat.sub in
/-- C2 (counterexample): `c2curves` satisfies the full claimed invariant
(bridge anchors in sync and flat endpoints coinciding with solid
endpoints), yet after dragging the interior medial control point 1 the
regenerated medial flat curve starts at x = 102 — 5 % inward of the solid
start x = 100 — so its endpoints no longer coincide with the solid curve's
endpoints. -/
theorem C2_counterexample :
    (bridgesOk c2curves ∧ flatEndpointsMatch c2curves) ∧
    ¬ flatEndpointsMatch (movePointUpdate rectOutline c2curves CurveKind.medial 1 ⟨105, 10⟩) := by
  refine ⟨⟨?_, ?_⟩, ?_⟩ <;> decide

unseal Rat.add Rat.mul Rat.inv Rat.sub in
/-- C2 (witness): the amended synchronization theorem applied to
`c2curves` over the rectangular outline. -/
theorem C2_witness :
    (c2curves.medial.length = 8 ∧ c2curves.lateral.length = 5 ∧
      c2curves.transverse.length = 8 ∧ c2curves.lateralBridge.length = 3 ∧
      c2curves.metatarsalBridge.length = 3 ∧ bridgesOk c2curves) ∧
    (∀ dx dy, bridgesOk (moveWholeTransverse c2curves dx dy)) ∧
    (∀ idx pos, idx < 8 → bridgesOk (movePointUpdate rectOutline c2curves CurveKind.transverse idx pos)) :=
  ⟨⟨rfl, rfl, rfl, rfl, rfl, by decide⟩,
   (C2_edit_sync rectOutline c2curves rfl rfl rfl rfl rfl (by decide)).2.2.2,
   (C2_edit_sync rectOutline c2curves rfl rfl rfl rfl rfl (by decide)).2.2.1⟩

/-- A concrete triangle used by the resampling witness. -/
def triPts : List Point := [⟨0, 0⟩, ⟨4, 0⟩, ⟨4, 3⟩]

/-- C10 (witness): resampling the concrete triangle to five points returns
five points starting with the triangle's first vertex. -/
theorem C10_witness :
    (2 ≤ triPts.length ∧ 1 ≤ 5) ∧
    ((resamplePolygon idPrims triPts 5).length = 5 ∧
      (resamplePolygon idPrims triPts 5).head? = triPts.head?) :=
  ⟨⟨by decide, by decide⟩,
   C10_resamplePolygon_count_and_head idPrims triPts 5 (by decide) (by decide)⟩

end Bionicsole
